import Mathlib

/-
  Verification of the Neural Memory Embedding and Knowledge Graph Engine.

  Shallow embedding of the Rust sources
    src-tauri/src/database/neural_network.rs
    src-tauri/src/database/neural_embeddings.rs
    src-tauri/src/database/neural_knowledge_graph.rs
  in Lean 4.  Numeric f32 values are modelled as exact rationals; the
  pseudo-random initialization stream (fastrand) is modelled as an explicit
  deterministic oracle passed to the builder; f32 transcendentals (exp, tanh,
  sqrt) that the claims never depend on numerically are modelled as
  uninterpreted function parameters.  HashMap is modelled as an association
  list with overwrite-on-insert; wall-clock timestamps are Int seconds.
-/

namespace Banshee

/-- Memory types, from memory.rs (enum MemoryType). -/
inductive MemoryType where
  | Conversation
  | Task
  | Learning
  | Context
  | Tool
  | Error
  | Success
  | Pattern
deriving DecidableEq

/-- Relationship types, from neural_knowledge_graph.rs (enum NeuralRelationshipType). -/
inductive NeuralRelationshipType where
  | SemanticSimilarity
  | TemporalSequence
  | CausalRelation
  | AgentCollaboration
  | ContextSharing
  | PatternSimilarity
  | ToolUsage
  | ErrorSolution
deriving DecidableEq

/-- The Debug rendering of a relationship type, as stored into
    NeuralGraphEdge.relationship_type by create_neural_edge. -/
def relTypeName : NeuralRelationshipType → String
  | .SemanticSimilarity => "SemanticSimilarity"
  | .TemporalSequence => "TemporalSequence"
  | .CausalRelation => "CausalRelation"
  | .AgentCollaboration => "AgentCollaboration"
  | .ContextSharing => "ContextSharing"
  | .PatternSimilarity => "PatternSimilarity"
  | .ToolUsage => "ToolUsage"
  | .ErrorSolution => "ErrorSolution"

/-- The Display rendering of a memory type, used in add_memory_node
    for the node name. -/
def memTypeName : MemoryType → String
  | .Conversation => "Conversation"
  | .Task => "Task"
  | .Learning => "Learning"
  | .Context => "Context"
  | .Tool => "Tool"
  | .Error => "Error"
  | .Success => "Success"
  | .Pattern => "Pattern"

section AssocList

variable {K V : Type} [DecidableEq K]

/-- Association-list lookup (model of HashMap::get). -/
def alGet : List (K × V) → K → Option V
  | [], _ => none
  | p :: rest, k => if p.1 = k then some p.2 else alGet rest k

/-- Drop every binding of a key (helper for overwriting insert). -/
def alRemove : List (K × V) → K → List (K × V)
  | [], _ => []
  | p :: rest, k => if p.1 = k then alRemove rest k else p :: alRemove rest k

/-- Association-list insert with overwrite (model of HashMap::insert). -/
def alInsert (l : List (K × V)) (k : K) (v : V) : List (K × V) :=
  (k, v) :: alRemove l k

/-- Model of HashMap::entry(k).or_insert_with(default): make sure an entry
    exists, without touching an existing one. -/
def alEnsure (l : List (K × List V)) (k : K) : List (K × List V) :=
  if (alGet l k).isSome then l else (k, []) :: l

/-- Model of HashMap::entry(k).or_default().push(v). -/
def alPush (l : List (K × List V)) (k : K) (v : V) : List (K × List V) :=
  match alGet l k with
  | some vs => alInsert l k (vs ++ [v])
  | none => alInsert l k [v]

theorem alGet_alRemove (l : List (K × V)) (k k' : K) (hk : ¬ k = k') :
    alGet (alRemove l k) k' = alGet l k' := by
  have hk' : ¬ k' = k := fun h => hk h.symm
  induction l with
  | nil => rfl
  | cons p rest ih =>
    by_cases hp : p.1 = k
    · have hp' : ¬ p.1 = k' := by rw [hp]; exact hk
      simp [alRemove, hp, alGet, hp', ih, hk, hk']
    · by_cases hp' : p.1 = k' <;> simp [alRemove, hp, alGet, hp', ih, hk, hk']

theorem alGet_alInsert (l : List (K × V)) (k k' : K) (v : V) :
    alGet (alInsert l k v) k' = if k = k' then some v else alGet l k' := by
  unfold alInsert
  by_cases hk : k = k'
  · simp [alGet, hk]
  · simp [alGet, hk, alGet_alRemove l k k' hk]

theorem mem_alRemove {l : List (K × V)} {k : K} {p : K × V}
    (h : p ∈ alRemove l k) : p ∈ l := by
  induction l with
  | nil => simp [alRemove] at h
  | cons q rest ih =>
    by_cases hq : q.1 = k
    · simp only [alRemove, hq, if_true] at h
      exact List.mem_cons.mpr (Or.inr (ih h))
    · simp only [alRemove, hq, if_false] at h
      rcases List.mem_cons.mp h with h' | h'
      · exact List.mem_cons.mpr (Or.inl h')
      · exact List.mem_cons.mpr (Or.inr (ih h'))

theorem mem_alInsert {l : List (K × V)} {k : K} {v : V} {p : K × V}
    (h : p ∈ alInsert l k v) : p = (k, v) ∨ p ∈ l := by
  unfold alInsert at h
  rcases List.mem_cons.mp h with h' | h'
  · exact Or.inl h'
  · exact Or.inr (mem_alRemove h')

theorem alGet_isSome_of_mem {l : List (K × V)} {k : K} {v : V}
    (h : (k, v) ∈ l) : (alGet l k).isSome := by
  induction l with
  | nil => simp at h
  | cons p rest ih =>
    rcases List.mem_cons.mp h with h' | h'
    · simp [alGet, ← h']
    · by_cases hp : p.1 = k
      · simp [alGet, hp]
      · simp only [alGet, hp, if_false]
        exact ih h'

theorem alGet_alEnsure_isSome (l : List (K × List V)) (k : K) :
    (alGet (alEnsure l k) k).isSome := by
  unfold alEnsure
  by_cases h : (alGet l k).isSome
  · simp [h]
  · simp [h, alGet]

theorem alGet_alEnsure_isSome_of (l : List (K × List V)) (k k' : K)
    (h : (alGet l k').isSome) : (alGet (alEnsure l k) k').isSome := by
  unfold alEnsure
  by_cases hs : (alGet l k).isSome
  · simpa [hs] using h
  · by_cases hk : k = k' <;> simp [hs, alGet, hk, h]

theorem alGet_alPush_isSome_of (l : List (K × List V)) (k k' : K) (v : V)
    (h : (alGet l k').isSome) : (alGet (alPush l k v) k').isSome := by
  unfold alPush
  by_cases hk : k = k' <;>
    cases hget : alGet l k <;>
    simp [alGet_alInsert, hk, h]

end AssocList

/-! ## Dense Network Engine (neural_network.rs) -/

/-- Activation function tags, from neural_network.rs (enum ActivationFunction).
    Their numeric apply/derivative bodies use f32 transcendentals; the claims
    settled here never depend on those values, so application is modelled by an
    uninterpreted parameter actApply passed to run. -/
inductive ActivationFunction where
  | Linear
  | Sigmoid
  | Tanh
  | ReLU
  | LeakyReLU
  | GELU
deriving DecidableEq

/-- Layer configuration, from neural_network.rs (struct LayerConfig). -/
structure LayerConfig where
  size : Nat
  activation : ActivationFunction
  dropout_rate : ℚ
deriving DecidableEq

/-- Placeholder used where the Rust code indexes layers unconditionally
    (layers[0], layers.last().unwrap()); built networks have at least two
    layers, so every theorem stays in the in-bounds regime. -/
def defaultLayer : LayerConfig := { size := 0, activation := .Linear, dropout_rate := 0 }

/-- Builder state, from neural_network.rs (struct NetworkBuilder). -/
structure NetworkBuilder where
  layers : List LayerConfig
  learning_rate : ℚ
  connection_rate : ℚ

namespace NetworkBuilder

/-- NetworkBuilder::new. -/
def new : NetworkBuilder :=
  { layers := [], learning_rate := 1/1000, connection_rate := 1 }

/-- NetworkBuilder::input_layer. -/
def input_layer (b : NetworkBuilder) (size : Nat) : NetworkBuilder :=
  { b with layers := b.layers ++ [{ size := size, activation := .Linear, dropout_rate := 0 }] }

/-- NetworkBuilder::hidden_layer_with_activation. -/
def hidden_layer_with_activation (b : NetworkBuilder) (size : Nat)
    (activation : ActivationFunction) (dropout_rate : ℚ) : NetworkBuilder :=
  { b with layers := b.layers ++ [{ size := size, activation := activation, dropout_rate := dropout_rate }] }

/-- NetworkBuilder::hidden_layer (default sigmoid activation). -/
def hidden_layer (b : NetworkBuilder) (size : Nat) : NetworkBuilder :=
  b.hidden_layer_with_activation size .Sigmoid 0

/-- NetworkBuilder::output_layer. -/
def output_layer (b : NetworkBuilder) (size : Nat) : NetworkBuilder :=
  { b with layers := b.layers ++ [{ size := size, activation := .Linear, dropout_rate := 0 }] }

/-- NetworkBuilder::output_layer_with_activation. -/
def output_layer_with_activation (b : NetworkBuilder) (size : Nat)
    (activation : ActivationFunction) : NetworkBuilder :=
  { b with layers := b.layers ++ [{ size := size, activation := activation, dropout_rate := 0 }] }

/-- NetworkBuilder::learning_rate (renamed: the field has the same name). -/
def set_learning_rate (b : NetworkBuilder) (rate : ℚ) : NetworkBuilder :=
  { b with learning_rate := rate }

/-- NetworkBuilder::connection_rate (renamed: the field has the same name). -/
def set_connection_rate (b : NetworkBuilder) (rate : ℚ) : NetworkBuilder :=
  { b with connection_rate := max 0 (min rate 1) }

end NetworkBuilder

/-- A weight matrix is a list of rows; row r of the matrix for layer pair i
    has the weight for output neuron r and input neuron c at column c. -/
def mkMatrix (rows cols : Nat) (f : Nat → Nat → ℚ) : List (List ℚ) :=
  (List.range rows).map (fun r => (List.range cols).map (fun c => f r c))

/-- The network, from neural_network.rs (struct NeuralNetwork). -/
structure NeuralNetwork where
  layers : List LayerConfig
  weights : List (List (List ℚ))
  biases : List (List ℚ)
  learning_rate : ℚ
deriving DecidableEq

/-- NetworkBuilder::build.  The fastrand-driven Xavier initialization
    (including the connection-rate sparsification) is modelled by the
    deterministic oracle init, giving the f32 value stored at
    (layer pair i, row r, column c).  The only fallible step in the source is
    the layer-count check. -/
def NetworkBuilder.build (init : Nat → Nat → Nat → ℚ) (b : NetworkBuilder) :
    Except String NeuralNetwork :=
  if b.layers.length < 2 then
    .error ("Network must have at least input and output layers")
  else
    .ok {
      layers := b.layers,
      weights := (List.range (b.layers.length - 1)).map (fun i =>
        mkMatrix (b.layers.getD (i + 1) defaultLayer).size
          (b.layers.getD i defaultLayer).size (init i)),
      biases := (List.range (b.layers.length - 1)).map (fun i =>
        List.replicate (b.layers.getD (i + 1) defaultLayer).size 0),
      learning_rate := b.learning_rate }

/-- Dot product of a weight row with the activations (ndarray dot).  In every
    reachable call the two lists have equal length. -/
def dotL (r x : List ℚ) : ℚ := ((r.zip x).map (fun p => p.1 * p.2)).sum

/-- weights * input + bias for one layer (ndarray W.dot(x) + b). -/
def matVecAdd (W : List (List ℚ)) (b : List ℚ) (x : List ℚ) : List ℚ :=
  (W.zip b).map (fun p => dotL p.1 x + p.2)

/-- The forward loop of NeuralNetwork::run: for each layer pair apply the
    linear map then the next layer activation. -/
def forwardPass (actApply : ActivationFunction → ℚ → ℚ) :
    List (List (List ℚ)) → List (List ℚ) → List LayerConfig → List ℚ → List ℚ
  | W :: ws, b :: bs, lc :: lcs, x =>
      forwardPass actApply ws bs lcs ((matVecAdd W b x).map (actApply lc.activation))
  | _, _, _, x => x

/-- NeuralNetwork::run, incl. the silent zero-vector fallback on an input
    whose length differs from the first layer size. -/
def NeuralNetwork.run (actApply : ActivationFunction → ℚ → ℚ)
    (net : NeuralNetwork) (input : List ℚ) : List ℚ :=
  if input.length ≠ (net.layers.headD defaultLayer).size then
    List.replicate (net.layers.getLastD defaultLayer).size 0
  else
    forwardPass actApply net.weights net.biases net.layers.tail input

/-- NeuralNetwork::num_inputs. -/
def NeuralNetwork.num_inputs (net : NeuralNetwork) : Nat :=
  (net.layers.headD defaultLayer).size

/-- NeuralNetwork::num_outputs. -/
def NeuralNetwork.num_outputs (net : NeuralNetwork) : Nat :=
  (net.layers.getLastD defaultLayer).size

/-- NeuralNetwork::get_weights: all weight matrices flattened row-major, then
    all bias vectors, in layer order (ndarray iteration order). -/
def NeuralNetwork.get_weights (net : NeuralNetwork) : List ℚ :=
  (net.weights.map (fun W => W.flatten)).flatten ++ net.biases.flatten

/-- The matrix-refill loop of set_weights: rewrite each row of the template
    matrix with the next entries of the flat slice (row-major, matching the
    [[i, j]] write order of the source). -/
def refillMat : List (List ℚ) → List ℚ → List (List ℚ)
  | [], _ => []
  | r :: rs, ws => ws.take r.length :: refillMat rs (ws.drop r.length)

/-- The per-matrix pass of set_weights: before each matrix the source checks
    idx + matrix_size > weights.len() and errors without touching that matrix;
    matrices already processed stay overwritten. -/
def setMatrices : List (List (List ℚ)) → List ℚ →
    (List (List (List ℚ)) × List ℚ × Bool)
  | [], ws => ([], ws, true)
  | W :: rest, ws =>
    let msize := W.flatten.length
    if msize > ws.length then (W :: rest, ws, false)
    else
      let out := setMatrices rest (ws.drop msize)
      (refillMat W ws :: out.1, out.2.1, out.2.2)

/-- The per-vector bias pass of set_weights, with the same
    check-then-overwrite structure. -/
def setBiases : List (List ℚ) → List ℚ → (List (List ℚ) × List ℚ × Bool)
  | [], ws => ([], ws, true)
  | v :: rest, ws =>
    if v.length > ws.length then (v :: rest, ws, false)
    else
      let out := setBiases rest (ws.drop v.length)
      (ws.take v.length :: out.1, out.2.1, out.2.2)

/-- NeuralNetwork::set_weights.  The returned network is the mutated state
    (the source updates in place); the Except mirrors the Result.  On an error
    the already-processed prefix stays overwritten, as in the source. -/
def NeuralNetwork.set_weights (net : NeuralNetwork) (ws : List ℚ) :
    NeuralNetwork × Except String Unit :=
  let mpass := setMatrices net.weights ws
  if ¬ mpass.2.2 then
    ({ net with weights := mpass.1 }, .error ("Not enough weights provided"))
  else
    let bpass := setBiases net.biases mpass.2.1
    if ¬ bpass.2.2 then
      ({ net with weights := mpass.1, biases := bpass.1 },
        .error ("Not enough weights provided for biases"))
    else if bpass.2.1 ≠ [] then
      ({ net with weights := mpass.1, biases := bpass.1 },
        .error ("Weight vector size mismatch"))
    else
      ({ net with weights := mpass.1, biases := bpass.1 }, .ok ())

/-! ## Embedding Service (neural_embeddings.rs) -/

/-- Memory record, from memory.rs (struct AgentMemory); timestamps are Int
    Unix seconds, the unused updated_at/embedding fields are omitted. -/
structure AgentMemory where
  id : String
  agent_id : String
  memory_type : MemoryType
  content : String
  metadata : List (String × String)
  relevance_score : ℚ
  created_at : Int
  access_count : Int
  tags : List String
deriving DecidableEq

/-- Service configuration, from neural_embeddings.rs (struct EmbeddingConfig). -/
structure EmbeddingConfig where
  embedding_dim : Nat
  max_text_length : Nat
  learning_rate : ℚ
  training_epochs : Nat
  cache_size_limit : Nat
deriving DecidableEq

/-- Default::default for EmbeddingConfig. -/
def EmbeddingConfig.default : EmbeddingConfig :=
  { embedding_dim := 256, max_text_length := 512, learning_rate := 1/1000,
    training_epochs := 100, cache_size_limit := 10000 }

/-- char::is_ascii_punctuation. -/
def isAsciiPunct (c : Char) : Bool :=
  let n := c.toNat
  (33 ≤ n && n ≤ 47) || (58 ≤ n && n ≤ 64) || (91 ≤ n && n ≤ 96) || (123 ≤ n && n ≤ 126)

/-- str::split_whitespace().count(): number of maximal non-whitespace runs.
    Unicode whitespace is approximated by Char.isWhitespace. -/
def wordCount (cs : List Char) : Nat :=
  (cs.foldl (fun st c =>
    if c.isWhitespace then (st.1, false)
    else if st.2 then st else (st.1 + 1, true)) ((0 : Nat), false)).1

/-- NeuralEmbeddingService::text_to_features: per-character codepoint / 65536
    in the first max_text_length slots, and when the text leaves room, five
    scalar statistics written at max_text_length - 10 .. - 6.  Rust
    char::is_uppercase (Unicode) is approximated by Char.isUpper. -/
def text_to_features (config : EmbeddingConfig) (text : String) : List ℚ :=
  let chars := text.toList
  let features : List ℚ := (List.range config.max_text_length).map (fun i =>
    match chars.get? i with
    | some ch => (ch.toNat : ℚ) / 65536
    | none => 0)
  let text_len := chars.length
  if text_len + 10 < config.max_text_length then
    let stats_start := config.max_text_length - 10
    let word_count := wordCount chars
    let avg_word_len : ℚ := if word_count > 0 then (text_len : ℚ) / (word_count : ℚ) else 0
    let punct_count := (chars.filter isAsciiPunct).length
    let upper_count := (chars.filter Char.isUpper).length
    ((((features.set stats_start ((text_len : ℚ) / 1000)).set
        (stats_start + 1) ((word_count : ℚ) / 100)).set
        (stats_start + 2) (avg_word_len / 20)).set
        (stats_start + 3) ((punct_count : ℚ) / ((text_len : ℚ) + 1))).set
        (stats_start + 4) ((upper_count : ℚ) / ((text_len : ℚ) + 1))
  else features

/-- NeuralEmbeddingService::normalize_embedding; the f32 sqrt is the
    uninterpreted parameter sqrtQ. -/
def normalize_embedding (sqrtQ : ℚ → ℚ) (embedding : List ℚ) : List ℚ :=
  let norm := sqrtQ ((embedding.map (fun x => x * x)).sum)
  if norm > 0 then embedding.map (fun x => x / norm) else embedding

/-- The service, from neural_embeddings.rs (struct NeuralEmbeddingService).
    The cache key type κ abstracts the SHA-256 hex string computed by
    generate_cache_key; the key computation is the parameter keyFn below. -/
structure NeuralEmbeddingService (κ : Type) where
  cache : List (κ × List ℚ)
  memory_networks : List (MemoryType × NeuralNetwork)
  general_network : NeuralNetwork
  config : EmbeddingConfig

/-- NeuralEmbeddingService::new: the general network plus the specialized
    networks the source actually builds (Conversation, Task, Learning,
    Pattern); init n abstracts the fastrand stream of the n-th build. -/
def NeuralEmbeddingService.new (κ : Type) (init : Nat → Nat → Nat → Nat → ℚ)
    (config : EmbeddingConfig) : Except String (NeuralEmbeddingService κ) := do
  let general_network ←
    (((((NetworkBuilder.new.input_layer config.max_text_length).hidden_layer_with_activation
      512 .ReLU (1/10)).hidden_layer_with_activation 384 .GELU (1/10)).output_layer
      config.embedding_dim).set_learning_rate config.learning_rate).build (init 0)
  let conversation_network ←
    (((((NetworkBuilder.new.input_layer config.max_text_length).hidden_layer_with_activation
      256 .Tanh (1/10)).hidden_layer_with_activation 128 .ReLU (5/100)).output_layer
      config.embedding_dim).set_learning_rate (config.learning_rate * (12/10))).build (init 1)
  let task_network ←
    (((((NetworkBuilder.new.input_layer config.max_text_length).hidden_layer_with_activation
      384 .ReLU (1/10)).hidden_layer_with_activation 192 .GELU (1/10)).output_layer
      config.embedding_dim).set_learning_rate config.learning_rate).build (init 2)
  let learning_network ←
    (((((NetworkBuilder.new.input_layer config.max_text_length).hidden_layer_with_activation
      512 .GELU (15/100)).hidden_layer_with_activation 256 .Tanh (1/10)).output_layer
      config.embedding_dim).set_learning_rate (config.learning_rate * (8/10))).build (init 3)
  let pattern_network ←
    (((((NetworkBuilder.new.input_layer config.max_text_length).hidden_layer_with_activation
      128 .ReLU (2/10)).hidden_layer_with_activation 64 .Sigmoid (1/10)).output_layer
      config.embedding_dim).set_learning_rate (config.learning_rate * (15/10))).build (init 4)
  .ok {
    cache := [],
    memory_networks := [(.Conversation, conversation_network), (.Task, task_network),
      (.Learning, learning_network), (.Pattern, pattern_network)],
    general_network := general_network,
    config := config }

/-- The network-selection step of embed_text: the specialized network for the
    given type when one exists, the general network otherwise. -/
def selectNetwork {κ : Type} (s : NeuralEmbeddingService κ)
    (memory_type : Option MemoryType) : NeuralNetwork :=
  match memory_type with
  | some mem_type =>
    match alGet s.memory_networks mem_type with
    | some network => network
    | none => s.general_network
  | none => s.general_network

/-- The cache-miss computation of embed_text: features, selected network
    forward pass, L2 normalization. -/
def computeEmbed (actApply : ActivationFunction → ℚ → ℚ) (sqrtQ : ℚ → ℚ)
    {κ : Type} (s : NeuralEmbeddingService κ) (text : String)
    (memory_type : Option MemoryType) : List ℚ :=
  normalize_embedding sqrtQ
    ((selectNetwork s memory_type).run actApply (text_to_features s.config text))

/-- NeuralEmbeddingService::embed_text: cache probe, miss computation, and the
    clear-at-capacity insert (cache.len() >= limit clears everything, then the
    new entry is inserted). -/
def NeuralEmbeddingService.embed_text {κ : Type} [DecidableEq κ]
    (actApply : ActivationFunction → ℚ → ℚ) (sqrtQ : ℚ → ℚ)
    (keyFn : String → Option MemoryType → κ) (s : NeuralEmbeddingService κ)
    (text : String) (memory_type : Option MemoryType) :
    List ℚ × NeuralEmbeddingService κ :=
  let cache_key := keyFn text memory_type
  match alGet s.cache cache_key with
  | some cached_embedding => (cached_embedding, s)
  | none =>
    let normalized_embedding := computeEmbed actApply sqrtQ s text memory_type
    let base := if s.cache.length ≥ s.config.cache_size_limit then [] else s.cache
    (normalized_embedding, { s with cache := alInsert base cache_key normalized_embedding })

/-- NeuralEmbeddingService::enhance_text_with_metadata. -/
def enhance_text_with_metadata (memory : AgentMemory) : String :=
  let enhanced := memory.content ++ " [TYPE:" ++ memTypeName memory.memory_type ++ "]"
  let enhanced := memory.metadata.foldl
    (fun acc p => acc ++ " [" ++ p.1 ++ ":" ++ p.2 ++ "]") enhanced
  if memory.tags ≠ [] then
    enhanced ++ " [TAGS:" ++ String.intercalate "," memory.tags ++ "]"
  else enhanced

/-- cosine_similarity, textually identical in neural_knowledge_graph.rs and
    neural_embeddings.rs.  The f32 sqrt and the final f32 division are the
    uninterpreted parameters sqrtQ and fdiv; everything the settled claim
    depends on (the two guards) is exact. -/
def cosine_similarity (sqrtQ : ℚ → ℚ) (fdiv : ℚ → ℚ → ℚ) (a b : List ℚ) : ℚ :=
  if a.length ≠ b.length then 0
  else
    let dot_product := ((a.zip b).map (fun p => p.1 * p.2)).sum
    let norm_a := sqrtQ ((a.map (fun x => x * x)).sum)
    let norm_b := sqrtQ ((b.map (fun x => x * x)).sum)
    if norm_a = 0 ∨ norm_b = 0 then 0
    else fdiv dot_product (norm_a * norm_b)

/-! ## Knowledge Graph Engine (neural_knowledge_graph.rs) -/

/-- Graph configuration, from neural_knowledge_graph.rs (struct
    NeuralGraphConfig), with temporal_window_hours in Int hours. -/
structure NeuralGraphConfig where
  node_embedding_dim : Nat
  edge_embedding_dim : Nat
  attention_heads : Nat
  max_neighbors : Nat
  temporal_window_hours : Int
  similarity_threshold : ℚ
  learning_rate : ℚ
  cache_size_limit : Nat
deriving DecidableEq

/-- Default::default for NeuralGraphConfig. -/
def NeuralGraphConfig.default : NeuralGraphConfig :=
  { node_embedding_dim := 128, edge_embedding_dim := 64, attention_heads := 4,
    max_neighbors := 50, temporal_window_hours := 24, similarity_threshold := 7/10,
    learning_rate := 1/1000, cache_size_limit := 10000 }

/-- Graph node, from neural_knowledge_graph.rs (struct NeuralGraphNode). -/
structure NeuralGraphNode where
  id : String
  node_type : String
  name : String
  content : String
  memory_type : Option MemoryType
  agent_id : Option String
  created_at : Int
  last_accessed : Int
  access_count : Int
  embedding : Option (List ℚ)
  properties : List (String × String)
  position : Option (ℚ × ℚ)
deriving DecidableEq

/-- Graph edge, from neural_knowledge_graph.rs (struct NeuralGraphEdge);
    relationship_type is the Debug string, as in the source. -/
structure NeuralGraphEdge where
  id : String
  from_node : String
  to_node : String
  relationship_type : String
  weight : ℚ
  confidence : ℚ
  created_at : Int
  last_updated : Int
  temporal_strength : ℚ
  embedding : Option (List ℚ)
  properties : List (String × String)
deriving DecidableEq

/-- Graph structure cache, from neural_knowledge_graph.rs (struct
    GraphStructure). -/
structure GraphStructure where
  nodes : List (String × NeuralGraphNode)
  edges : List (String × NeuralGraphEdge)
  adjacency : List (String × List String)
  reverse_adjacency : List (String × List String)

/-- The full mutable state of the engine relevant to node insertion: graph
    structure plus the node/edge embedding caches. -/
structure GraphState where
  graph : GraphStructure
  node_embeddings : List (String × List ℚ)
  edge_embeddings : List (String × List ℚ)

/-- Empty state, as produced by NeuralKnowledgeGraph::new. -/
def initialGraphState : GraphState :=
  { graph := { nodes := [], edges := [], adjacency := [], reverse_adjacency := [] },
    node_embeddings := [], edge_embeddings := [] }

/-- The memory-type pattern arm of classify_relationship (the inner Rust
    match, in source order, None when the match falls through). -/
def classifyTypePair : MemoryType → MemoryType → Option NeuralRelationshipType
  | .Error, .Success => some .ErrorSolution
  | .Success, .Error => some .ErrorSolution
  | .Tool, _ => some .ToolUsage
  | _, .Tool => some .ToolUsage
  | .Pattern, _ => some .PatternSimilarity
  | _, .Pattern => some .PatternSimilarity
  | _, _ => none

/-- The if-let (Some, Some) wrapper around the pattern arm: both memory types
    must be present for any of the type rules to fire. -/
def typePatternRel : Option MemoryType → Option MemoryType → Option NeuralRelationshipType
  | some type1, some type2 => classifyTypePair type1 type2
  | _, _ => none

/-- (node2.created_at - node1.created_at).num_minutes().abs() over Int
    seconds: chrono num_minutes truncates toward zero, so the absolute whole
    minutes equal natAbs of the second difference divided by 60. -/
def minutesAbs (t1 t2 : Int) : Nat := (t2 - t1).natAbs / 60

/-- NeuralKnowledgeGraph::classify_relationship.  The untyped-content
    similarity computed by analyze_context_similarity through the embedding
    service is the parameter ctxSim (deterministic by the cache-coherence
    property of embed_text). -/
def classify_relationship (ctxSim : String → String → ℚ)
    (node1 node2 : NeuralGraphNode) (similarity : ℚ) : NeuralRelationshipType :=
  if similarity > 9/10 then .SemanticSimilarity
  else if node1.agent_id = node2.agent_id ∧ node1.agent_id.isSome then .AgentCollaboration
  else if node1.agent_id = node2.agent_id ∧ minutesAbs node1.created_at node2.created_at < 60 then
    .TemporalSequence
  else
    match typePatternRel node1.memory_type node2.memory_type with
    | some rel => rel
    | none =>
      if ctxSim node1.content node2.content > 4/5 then .ContextSharing
      else .SemanticSimilarity

/-- NeuralKnowledgeGraph::encode_relationship_type: a one-hot vector over the
    eight relationship types. -/
def encode_relationship_type (rel_type : NeuralRelationshipType) : List ℚ :=
  let index : Nat :=
    match rel_type with
    | .SemanticSimilarity => 0
    | .TemporalSequence => 1
    | .CausalRelation => 2
    | .AgentCollaboration => 3
    | .ContextSharing => 4
    | .PatternSimilarity => 5
    | .ToolUsage => 6
    | .ErrorSolution => 7
  (List.replicate 8 (0 : ℚ)).set index 1

/-- NeuralKnowledgeGraph::calculate_temporal_strength; num_hours truncates
    toward zero (Int.div). -/
def calculate_temporal_strength (cfg : NeuralGraphConfig) (created_at now : Int) : ℚ :=
  let hours_ago : Int := Int.tdiv (now - created_at) 3600
  max (1 - (hours_ago : ℚ) / (cfg.temporal_window_hours : ℚ)) 0

/-- NeuralKnowledgeGraph::create_neural_edge.  The fixed edge-network forward
    pass is the parameter edgeRun.  On a missing cached embedding the state is
    returned untouched together with the error, as in the source. -/
def create_neural_edge (edgeRun : List ℚ → List ℚ) (cfg : NeuralGraphConfig)
    (st : GraphState) (from_node to_node : String)
    (relationship_type : NeuralRelationshipType) (confidence : ℚ) (now : Int) :
    GraphState × Except String String :=
  match alGet st.node_embeddings from_node with
  | none => (st, .error ("From node embedding not found"))
  | some from_embedding =>
    match alGet st.node_embeddings to_node with
    | none => (st, .error ("To node embedding not found"))
    | some to_embedding =>
      let edge_id := "edge_" ++ from_node ++ "_" ++ to_node
      let edge_features := from_embedding ++ to_embedding ++
        encode_relationship_type relationship_type
      let edge_embedding := edgeRun edge_features
      let temporal_strength := calculate_temporal_strength cfg now now
      let neural_edge : NeuralGraphEdge := {
        id := edge_id, from_node := from_node, to_node := to_node,
        relationship_type := relTypeName relationship_type,
        weight := confidence, confidence := confidence,
        created_at := now, last_updated := now,
        temporal_strength := temporal_strength,
        embedding := some edge_embedding, properties := [] }
      ({ st with
          graph := { st.graph with
            edges := alInsert st.graph.edges edge_id neural_edge,
            adjacency := alPush st.graph.adjacency from_node to_node,
            reverse_adjacency := alPush st.graph.reverse_adjacency to_node from_node },
          edge_embeddings := alInsert st.edge_embeddings edge_id edge_embedding },
        .ok edge_id)

/-- The candidate scan of discover_relationships: every other node inside the
    rolling temporal window whose cached embedding is similar enough, with its
    classified relationship.  cos abstracts the f32 cosine_similarity (exact
    range [-1, 1]). -/
def candidateRelationships (ctxSim : String → String → ℚ)
    (cos : List ℚ → List ℚ → ℚ) (cfg : NeuralGraphConfig)
    (nodes : List (String × NeuralGraphNode)) (node_id : String)
    (current : NeuralGraphNode) (cur_emb : List ℚ) (now : Int) :
    List (String × NeuralRelationshipType × ℚ) :=
  let temporal_threshold := now - cfg.temporal_window_hours * 3600
  nodes.filterMap (fun p =>
    if p.1 = node_id ∨ p.2.created_at < temporal_threshold then none
    else
      match p.2.embedding with
      | none => none
      | some other_embedding =>
        let similarity := cos cur_emb other_embedding
        if similarity ≥ cfg.similarity_threshold then
          some (p.1, classify_relationship ctxSim current p.2 similarity, similarity)
        else none)

/-- The edge-creation loop of discover_relationships: the ? operator aborts
    on the first error, keeping the edges already created. -/
def createEdgesLoop (edgeRun : List ℚ → List ℚ) (cfg : NeuralGraphConfig)
    (st : GraphState) (node_id : String) (now : Int) :
    List (String × NeuralRelationshipType × ℚ) → GraphState × Except String Unit
  | [] => (st, .ok ())
  | c :: rest =>
    match create_neural_edge edgeRun cfg st node_id c.1 c.2.1 c.2.2 now with
    | (st1, .ok _) => createEdgesLoop edgeRun cfg st1 node_id now rest
    | (st1, .error e) => (st1, .error e)

/-- NeuralKnowledgeGraph::discover_relationships. -/
def discover_relationships (ctxSim : String → String → ℚ)
    (cos : List ℚ → List ℚ → ℚ) (edgeRun : List ℚ → List ℚ)
    (cfg : NeuralGraphConfig) (st : GraphState) (node_id : String) (now : Int) :
    GraphState × Except String Unit :=
  match alGet st.graph.nodes node_id with
  | none => (st, .error ("Node not found"))
  | some current =>
    match current.embedding with
    | none => (st, .error ("Node has no embedding"))
    | some cur_emb =>
      createEdgesLoop edgeRun cfg st node_id now
        (candidateRelationships ctxSim cos cfg st.graph.nodes node_id current cur_emb now)

/-- NeuralKnowledgeGraph::add_memory_node.  embedM abstracts
    embedding_service.embed_memory (a pure function of the memory by the
    embed_text determinism property); now is the wall clock of this call. -/
def add_memory_node (embedM : AgentMemory → List ℚ) (ctxSim : String → String → ℚ)
    (cos : List ℚ → List ℚ → ℚ) (edgeRun : List ℚ → List ℚ)
    (cfg : NeuralGraphConfig) (st : GraphState) (memory : AgentMemory) (now : Int) :
    GraphState × Except String String :=
  let node_id := "memory_" ++ memory.id
  let node_embedding := embedM memory
  let neural_node : NeuralGraphNode := {
    id := node_id, node_type := "memory",
    name := "Memory: " ++ memTypeName memory.memory_type,
    content := memory.content,
    memory_type := some memory.memory_type,
    agent_id := some memory.agent_id,
    created_at := memory.created_at,
    last_accessed := now,
    access_count := memory.access_count,
    embedding := some node_embedding,
    properties := memory.metadata,
    position := none }
  let g := { st.graph with
    nodes := alInsert st.graph.nodes node_id neural_node,
    adjacency := alEnsure st.graph.adjacency node_id,
    reverse_adjacency := alEnsure st.graph.reverse_adjacency node_id }
  let ne := alInsert st.node_embeddings node_id node_embedding
  let ne := if ne.length > cfg.cache_size_limit then ne.drop (ne.length / 4) else ne
  let st1 : GraphState := { st with graph := g, node_embeddings := ne }
  let out := discover_relationships ctxSim cos edgeRun cfg st1 node_id now
  match out.2 with
  | .ok _ => (out.1, .ok node_id)
  | .error e => (out.1, .error e)

/-- A sequence of add_memory_node calls (each with its own wall clock),
    keeping whatever state each call leaves behind. -/
def runAdds (embedM : AgentMemory → List ℚ) (ctxSim : String → String → ℚ)
    (cos : List ℚ → List ℚ → ℚ) (edgeRun : List ℚ → List ℚ)
    (cfg : NeuralGraphConfig) (st : GraphState) :
    List (AgentMemory × Int) → GraphState
  | [] => st
  | op :: rest =>
    runAdds embedM ctxSim cos edgeRun cfg
      (add_memory_node embedM ctxSim cos edgeRun cfg st op.1 op.2).1 rest

/-- Every edge endpoint is a key of the node map. -/
def EdgesClosed (g : GraphStructure) : Prop :=
  ∀ p ∈ g.edges, (alGet g.nodes p.2.from_node).isSome ∧ (alGet g.nodes p.2.to_node).isSome

/-- Every node has a (possibly empty) entry in both adjacency maps. -/
def AdjComplete (g : GraphStructure) : Prop :=
  ∀ p ∈ g.nodes, (alGet g.adjacency p.1).isSome ∧ (alGet g.reverse_adjacency p.1).isSome

/-- Every edge weight and confidence lies in [0, 1]. -/
def EdgesBounded (g : GraphStructure) : Prop :=
  ∀ p ∈ g.edges, 0 ≤ p.2.weight ∧ p.2.weight ≤ 1 ∧ 0 ≤ p.2.confidence ∧ p.2.confidence ≤ 1

/-- The graph-consistency invariant of the specification. -/
def GraphWF (g : GraphStructure) : Prop :=
  EdgesClosed g ∧ AdjComplete g ∧ EdgesBounded g

/-! ## Claim C7 -/

/-- Claim C7: for all vectors a and b, cosine_similarity returns exactly 0.0
    whenever the lengths differ or either computed norm is zero, and in those
    cases the division is never executed: the result is 0 for EVERY
    interpretation fdiv of the f32 division (and so no NaN or Infinity can be
    produced by it). -/
theorem cosine_similarity_degenerate_zero (sqrtQ : ℚ → ℚ) (fdiv : ℚ → ℚ → ℚ)
    (a b : List ℚ)
    (h : a.length ≠ b.length ∨ sqrtQ ((a.map (fun x => x * x)).sum) = 0 ∨
      sqrtQ ((b.map (fun x => x * x)).sum) = 0) :
    cosine_similarity sqrtQ fdiv a b = 0 := by
  unfold cosine_similarity
  rcases h with h | h | h
  · simp [h]
  · by_cases hl : a.length ≠ b.length <;> simp [hl, h]
  · by_cases hl : a.length ≠ b.length <;> simp [hl, h]

/-- Witness for C7: a zero vector against a non-zero one, with the identity
    standing for sqrt and real division for fdiv. -/
theorem cosine_similarity_degenerate_zero_witness :
    ((([(0 : ℚ), 0].map (fun x => x * x)).sum) = 0) ∧
    cosine_similarity (fun x => x) (fun x y => x / y) [(0 : ℚ), 0] [(1 : ℚ), 1] = 0 :=
  ⟨by norm_num,
    cosine_similarity_degenerate_zero (fun x => x) (fun x y => x / y) _ _
      (Or.inr (Or.inl (by norm_num)))⟩

/-! ## Claim C5 (corrected) -/

/-- Counterexample to C5 as stated: a configuration with two layers, one of
    size zero, is claimed to be rejected, but build succeeds on it. -/
theorem build_accepts_zero_size_layer :
    ∃ net, (((NetworkBuilder.new.input_layer 0).output_layer 1).build
      (fun _ _ _ => 0)) = .ok net :=
  ⟨_, rfl⟩

/-- Amended C5: NetworkBuilder::build returns an error if and only if the
    configuration has fewer than 2 layers; zero-sized layers are not
    validated and build succeeds on them. -/
theorem build_ok_iff_two_layers (init : Nat → Nat → Nat → ℚ) (b : NetworkBuilder) :
    (∃ net, b.build init = .ok net) ↔ 2 ≤ b.layers.length := by
  unfold NetworkBuilder.build
  by_cases h : b.layers.length < 2
  · simp only [h, if_true]
    constructor
    · rintro ⟨net, hnet⟩
      cases hnet
    · intro h2
      omega
  · simp only [h, if_false]
    constructor
    · intro _
      omega
    · intro _
      exact ⟨_, rfl⟩

/-! ## Claim C4 -/

/-- The layer-by-layer description of the forward pass from the claim: fold
    activation(W·x + b) over the (weights, biases, non-input layers) triples. -/
def runLayerByLayer (actApply : ActivationFunction → ℚ → ℚ) (net : NeuralNetwork)
    (x : List ℚ) : List ℚ :=
  (net.weights.zip (net.biases.zip net.layers.tail)).foldl
    (fun acc t => (matVecAdd t.1 t.2.1 acc).map (actApply t.2.2.activation)) x

theorem forwardPass_eq_foldl (actApply : ActivationFunction → ℚ → ℚ) :
    ∀ (ws : List (List (List ℚ))) (bs : List (List ℚ)) (lcs : List LayerConfig) (x : List ℚ),
    forwardPass actApply ws bs lcs x =
      (ws.zip (bs.zip lcs)).foldl
        (fun acc t => (matVecAdd t.1 t.2.1 acc).map (actApply t.2.2.activation)) x
  | [], _, _, _ => rfl
  | _ :: _, [], _, _ => rfl
  | _ :: _, _ :: _, [], _ => rfl
  | W :: ws, b :: bs, lc :: lcs, x => by
    simp only [forwardPass, List.zip_cons_cons, List.foldl_cons]
    exact forwardPass_eq_foldl actApply ws bs lcs _

/-- Claim C4: for every built network, an input whose length differs from the
    first layer size yields the zero vector of output-layer size (a value, not
    a panic or an error), and an input of the correct length yields
    activation(W·x + b) applied layer by layer. -/
theorem run_dimension_mismatch_zero_vector (actApply : ActivationFunction → ℚ → ℚ)
    (init : Nat → Nat → Nat → ℚ) (b : NetworkBuilder) (net : NeuralNetwork)
    (hb : b.build init = .ok net) (x : List ℚ) :
    (x.length ≠ net.num_inputs →
      net.run actApply x = List.replicate net.num_outputs 0) ∧
    (x.length = net.num_inputs →
      net.run actApply x = runLayerByLayer actApply net x) := by
  constructor
  · intro hx
    unfold NeuralNetwork.run
    have hx' : x.length ≠ (net.layers.headD defaultLayer).size := hx
    rw [if_pos hx']
    rfl
  · intro hx
    unfold NeuralNetwork.run
    have hx' : x.length = (net.layers.headD defaultLayer).size := hx
    rw [if_neg (fun hc => hc hx'), forwardPass_eq_foldl]
    rfl

/-- Witness helper: a 1-input/1-output builder. -/
def tinyBuilder : NetworkBuilder := (NetworkBuilder.new.input_layer 1).output_layer 1

/-- The network tinyBuilder.build produces with the constant-5 init stream. -/
def tinyNetBuilt : NeuralNetwork :=
  { layers := [⟨1, .Linear, 0⟩, ⟨1, .Linear, 0⟩],
    weights := [[[5]]], biases := [[0]], learning_rate := 1/1000 }

/-- Witness for C4: at the built 1-1 network, the length-2 input hits the
    zero-vector fallback and the length-1 input takes the layer-by-layer path. -/
theorem run_dimension_mismatch_zero_vector_witness :
    (([1, 2] : List ℚ).length ≠ tinyNetBuilt.num_inputs ∧
      tinyNetBuilt.run (fun _ x => x) [1, 2] =
        List.replicate tinyNetBuilt.num_outputs 0) ∧
    (([7] : List ℚ).length = tinyNetBuilt.num_inputs ∧
      tinyNetBuilt.run (fun _ x => x) [7] =
        runLayerByLayer (fun _ x => x) tinyNetBuilt [7]) :=
  ⟨⟨by decide,
    (run_dimension_mismatch_zero_vector (fun _ x => x) (fun _ _ _ => 5) tinyBuilder
      tinyNetBuilt rfl [1, 2]).1 (by decide)⟩,
   ⟨by decide,
    (run_dimension_mismatch_zero_vector (fun _ x => x) (fun _ _ _ => 5) tinyBuilder
      tinyNetBuilt rfl [7]).2 (by decide)⟩⟩

/-! ## Claim C6 -/

theorem refillMat_self (W : List (List ℚ)) :
    ∀ rest, refillMat W (W.flatten ++ rest) = W := by
  induction W with
  | nil => intro rest; rfl
  | cons r rs ih =>
    intro rest
    rw [List.flatten_cons, List.append_assoc]
    simp only [refillMat]
    rw [List.take_left, List.drop_left]
    exact congrArg (r :: ·) (ih rest)

theorem setMatrices_flat (Ws : List (List (List ℚ))) :
    ∀ rest, setMatrices Ws ((Ws.map (fun W => W.flatten)).flatten ++ rest) =
      (Ws, rest, true) := by
  induction Ws with
  | nil => intro rest; simp [setMatrices]
  | cons W ws ih =>
    intro rest
    rw [List.map_cons, List.flatten_cons, List.append_assoc]
    simp only [setMatrices]
    rw [if_neg (by simp), List.drop_left, refillMat_self W _, ih rest]

theorem setBiases_flat (Bs : List (List ℚ)) :
    ∀ rest, setBiases Bs (Bs.flatten ++ rest) = (Bs, rest, true) := by
  induction Bs with
  | nil => intro rest; simp [setBiases]
  | cons v vs ih =>
    intro rest
    rw [List.flatten_cons, List.append_assoc]
    simp only [setBiases]
    rw [if_neg (by simp), List.drop_left, List.take_left, ih rest]

/-- Feeding get_weights back into set_weights is the identity on the network
    and succeeds. -/
theorem set_weights_get_weights (net : NeuralNetwork) :
    net.set_weights net.get_weights = (net, .ok ()) := by
  unfold NeuralNetwork.set_weights NeuralNetwork.get_weights
  rw [setMatrices_flat net.weights net.biases.flatten]
  simp only []
  rw [show net.biases.flatten = net.biases.flatten ++ [] by simp,
    setBiases_flat net.biases []]
  simp

/-- Claim C6: get_weights then set_weights succeeds and reproduces the
    identical run output for every input (the flatten order of get_weights
    matches the unflatten order of set_weights). -/
theorem get_set_weights_roundtrip (actApply : ActivationFunction → ℚ → ℚ)
    (net : NeuralNetwork) (x : List ℚ) :
    (net.set_weights net.get_weights).2 = .ok () ∧
    (net.set_weights net.get_weights).1.run actApply x = net.run actApply x := by
  rw [set_weights_get_weights net]
  exact ⟨rfl, rfl⟩

/-! ## Claim C10 -/

/-- Claim C10: set_weights is not atomic on failure.  At the built 1-1
    network with weight 5 and bias 0, the length-1 slice [9] makes
    set_weights error out on the bias pass, yet the weight matrix has already
    been overwritten with 9, and a subsequent run differs from the run before
    the failed call. -/
theorem set_weights_partial_overwrite :
    tinyBuilder.build (fun _ _ _ => 5) = .ok tinyNetBuilt ∧
    (tinyNetBuilt.set_weights [9]).2 =
      .error ("Not enough weights provided for biases") ∧
    (tinyNetBuilt.set_weights [9]).1.weights = [[[9]]] ∧
    tinyNetBuilt.weights = [[[5]]] ∧
    (tinyNetBuilt.set_weights [9]).1.run (fun _ x => x) [1] ≠
      tinyNetBuilt.run (fun _ x => x) [1] := by
  refine ⟨rfl, rfl, by decide, rfl, ?_⟩
  norm_num [NeuralNetwork.run, tinyNetBuilt, NeuralNetwork.set_weights, setMatrices,
    setBiases, refillMat, forwardPass, matVecAdd, dotL, defaultLayer]

/-! ## Claim C1 -/

/-- The precedence cascade exactly as the claim words it (rule 3 stated
    directly on the timestamp difference: strictly less than 60 minutes,
    i.e. 3600 seconds). -/
def classify_relationship_spec (ctxSim : String → String → ℚ)
    (node1 node2 : NeuralGraphNode) (similarity : ℚ) : NeuralRelationshipType :=
  if similarity > 9/10 then .SemanticSimilarity
  else if node1.agent_id = node2.agent_id ∧ node1.agent_id.isSome then .AgentCollaboration
  else if node1.agent_id = node2.agent_id ∧
      (node2.created_at - node1.created_at).natAbs < 3600 then .TemporalSequence
  else if (node1.memory_type = some .Error ∧ node2.memory_type = some .Success) ∨
      (node1.memory_type = some .Success ∧ node2.memory_type = some .Error) then .ErrorSolution
  else if node1.memory_type = some .Tool ∨ node2.memory_type = some .Tool then .ToolUsage
  else if node1.memory_type = some .Pattern ∨ node2.memory_type = some .Pattern then
    .PatternSimilarity
  else if ctxSim node1.content node2.content > 4/5 then .ContextSharing
  else .SemanticSimilarity

theorem minutesAbs_lt_iff (t1 t2 : Int) :
    minutesAbs t1 t2 < 60 ↔ (t2 - t1).natAbs < 3600 := by
  unfold minutesAbs
  rw [Nat.div_lt_iff_lt_mul (by norm_num)]

/-- Claim C1: on nodes that carry a memory type (as every node inserted by
    add_memory_node does), classify_relationship decides by exactly the
    eight-rule first-match-wins cascade of the claim. -/
theorem classify_relationship_matches_spec (ctxSim : String → String → ℚ)
    (node1 node2 : NeuralGraphNode) (similarity : ℚ)
    (h1 : node1.memory_type.isSome) (h2 : node2.memory_type.isSome) :
    classify_relationship ctxSim node1 node2 similarity =
      classify_relationship_spec ctxSim node1 node2 similarity := by
  obtain ⟨t1, ht1⟩ := Option.isSome_iff_exists.mp h1
  obtain ⟨t2, ht2⟩ := Option.isSome_iff_exists.mp h2
  unfold classify_relationship classify_relationship_spec
  by_cases hsim : similarity > 9/10
  · simp only [if_pos hsim]
  · simp only [if_neg hsim]
    by_cases hcollab : node1.agent_id = node2.agent_id ∧ node1.agent_id.isSome
    · simp only [if_pos hcollab]
    · simp only [if_neg hcollab]
      have hiff : (node1.agent_id = node2.agent_id ∧
          minutesAbs node1.created_at node2.created_at < 60) ↔
          (node1.agent_id = node2.agent_id ∧
          (node2.created_at - node1.created_at).natAbs < 3600) :=
        and_congr_right (fun _ => minutesAbs_lt_iff _ _)
      by_cases htemp : node1.agent_id = node2.agent_id ∧
          minutesAbs node1.created_at node2.created_at < 60
      · simp only [if_pos htemp, if_pos (hiff.mp htemp)]
      · simp only [if_neg htemp, if_neg (fun hc => htemp (hiff.mpr hc))]
        rw [ht1, ht2]
        simp only [typePatternRel]
        cases t1 <;> cases t2 <;> simp [classifyTypePair]

/-- Witness helper node: a Task memory of agent a at time 0. -/
def nodeW1 : NeuralGraphNode :=
  { id := "n1", node_type := "memory", name := "", content := "x",
    memory_type := some .Task, agent_id := some "a", created_at := 0,
    last_accessed := 0, access_count := 0, embedding := none,
    properties := [], position := none }

/-- Witness helper node: an Error memory of agent b at time 100. -/
def nodeW2 : NeuralGraphNode :=
  { id := "n2", node_type := "memory", name := "", content := "y",
    memory_type := some .Error, agent_id := some "b", created_at := 100,
    last_accessed := 0, access_count := 0, embedding := none,
    properties := [], position := none }

/-- Witness for C1 at two concrete typed nodes. -/
theorem classify_relationship_matches_spec_witness :
    (nodeW1.memory_type.isSome ∧ nodeW2.memory_type.isSome) ∧
    classify_relationship (fun _ _ => 0) nodeW1 nodeW2 (1/2) =
      classify_relationship_spec (fun _ _ => 0) nodeW1 nodeW2 (1/2) :=
  ⟨⟨rfl, rfl⟩,
    classify_relationship_matches_spec (fun _ _ => 0) nodeW1 nodeW2 (1/2) rfl rfl⟩

/-! ## Claim C3 (corrected) -/

/-- Counterexample to C3 as stated: the service built by new holds no
    specialized network for MemoryType::Context (the map has entries for
    Conversation, Task, Learning and Pattern only), so it does not hold one
    per each of the eight memory types. -/
theorem embedding_service_missing_context_network :
    ∃ s : NeuralEmbeddingService String,
      NeuralEmbeddingService.new String (fun _ _ _ _ => 0) EmbeddingConfig.default = .ok s ∧
      alGet s.memory_networks MemoryType.Context = none :=
  ⟨_, rfl, rfl⟩

/-- Amended C3: the service holds a specialized network for exactly the four
    types Conversation, Task, Learning, Pattern; embed_text with one of those
    routes through that network (whose architecture differs from the general
    one), and with Context, Tool, Error or Success it falls back to the
    general network. -/
theorem embedding_service_four_specialized_networks
    (κ : Type) (actApply : ActivationFunction → ℚ → ℚ) (sqrtQ : ℚ → ℚ)
    (init : Nat → Nat → Nat → Nat → ℚ) (config : EmbeddingConfig) :
    ∃ s : NeuralEmbeddingService κ,
      NeuralEmbeddingService.new κ init config = .ok s ∧
      s.memory_networks.map Prod.fst = [.Conversation, .Task, .Learning, .Pattern] ∧
      (∀ t : MemoryType,
        t ∈ ([.Conversation, .Task, .Learning, .Pattern] : List MemoryType) →
        ∃ net, alGet s.memory_networks t = some net ∧
          net.layers ≠ s.general_network.layers ∧
          ∀ text, computeEmbed actApply sqrtQ s text (some t) =
            normalize_embedding sqrtQ (net.run actApply (text_to_features config text))) ∧
      (∀ t : MemoryType,
        t ∉ ([.Conversation, .Task, .Learning, .Pattern] : List MemoryType) →
        alGet s.memory_networks t = none ∧
        ∀ text, computeEmbed actApply sqrtQ s text (some t) =
          normalize_embedding sqrtQ
            (s.general_network.run actApply (text_to_features config text))) := by
  refine ⟨_, rfl, rfl, ?_, ?_⟩
  · intro t ht
    cases t with
    | Conversation =>
      refine ⟨_, rfl, ?_, fun text => rfl⟩
      intro h
      simp [NetworkBuilder.new, NetworkBuilder.input_layer,
        NetworkBuilder.hidden_layer_with_activation, NetworkBuilder.output_layer,
        NetworkBuilder.set_learning_rate, NetworkBuilder.build] at h
    | Task =>
      refine ⟨_, rfl, ?_, fun text => rfl⟩
      intro h
      simp [NetworkBuilder.new, NetworkBuilder.input_layer,
        NetworkBuilder.hidden_layer_with_activation, NetworkBuilder.output_layer,
        NetworkBuilder.set_learning_rate, NetworkBuilder.build] at h
    | Learning =>
      refine ⟨_, rfl, ?_, fun text => rfl⟩
      intro h
      simp [NetworkBuilder.new, NetworkBuilder.input_layer,
        NetworkBuilder.hidden_layer_with_activation, NetworkBuilder.output_layer,
        NetworkBuilder.set_learning_rate, NetworkBuilder.build] at h
    | Pattern =>
      refine ⟨_, rfl, ?_, fun text => rfl⟩
      intro h
      simp [NetworkBuilder.new, NetworkBuilder.input_layer,
        NetworkBuilder.hidden_layer_with_activation, NetworkBuilder.output_layer,
        NetworkBuilder.set_learning_rate, NetworkBuilder.build] at h
    | Context => exact absurd ht (by simp)
    | Tool => exact absurd ht (by simp)
    | Error => exact absurd ht (by simp)
    | Success => exact absurd ht (by simp)
  · intro t ht
    cases t with
    | Conversation => exact absurd (by simp) ht
    | Task => exact absurd (by simp) ht
    | Learning => exact absurd (by simp) ht
    | Pattern => exact absurd (by simp) ht
    | Context => exact ⟨rfl, fun text => rfl⟩
    | Tool => exact ⟨rfl, fun text => rfl⟩
    | Error => exact ⟨rfl, fun text => rfl⟩
    | Success => exact ⟨rfl, fun text => rfl⟩

/-! ## Shared lemmas for the node-insertion state machine (C2, C9) -/

theorem alGet_alInsert_isSome_of {K V : Type} [DecidableEq K]
    (l : List (K × V)) (k k' : K) (v : V) (h : (alGet l k').isSome) :
    (alGet (alInsert l k v) k').isSome := by
  rw [alGet_alInsert]
  by_cases hk : k = k' <;> simp [hk, h]

theorem mem_of_alGet {K V : Type} [DecidableEq K] {l : List (K × V)} {k : K} {v : V}
    (h : alGet l k = some v) : (k, v) ∈ l := by
  induction l with
  | nil => cases h
  | cons p rest ih =>
    by_cases hp : p.1 = k
    · rw [alGet, if_pos hp] at h
      obtain rfl := Option.some.inj h
      exact List.mem_cons.mpr (Or.inl (by rw [← hp]))
    · rw [alGet, if_neg hp] at h
      exact List.mem_cons.mpr (Or.inr (ih h))

/-- create_neural_edge either leaves the state untouched (a missing cached
    embedding) or inserts exactly one edge from f to t with weight and
    confidence both equal to the passed confidence, pushing the two adjacency
    entries. -/
theorem cne_cases (edgeRun : List ℚ → List ℚ) (cfg : NeuralGraphConfig)
    (st : GraphState) (f t : String) (rel : NeuralRelationshipType)
    (conf : ℚ) (now : Int) :
    (create_neural_edge edgeRun cfg st f t rel conf now).1 = st ∨
    ∃ eid eemb,
      (create_neural_edge edgeRun cfg st f t rel conf now).1 =
        { st with
          graph := { st.graph with
            edges := alInsert st.graph.edges eid
              { id := eid, from_node := f, to_node := t,
                relationship_type := relTypeName rel, weight := conf,
                confidence := conf, created_at := now, last_updated := now,
                temporal_strength := calculate_temporal_strength cfg now now,
                embedding := some eemb, properties := [] },
            adjacency := alPush st.graph.adjacency f t,
            reverse_adjacency := alPush st.graph.reverse_adjacency t f },
          edge_embeddings := alInsert st.edge_embeddings eid eemb } := by
  unfold create_neural_edge
  cases alGet st.node_embeddings f with
  | none => exact Or.inl rfl
  | some fe =>
    cases alGet st.node_embeddings t with
    | none => exact Or.inl rfl
    | some te => exact Or.inr ⟨_, _, rfl⟩

/-- create_neural_edge never changes the node map. -/
theorem cne_nodes (edgeRun : List ℚ → List ℚ) (cfg : NeuralGraphConfig)
    (st : GraphState) (f t : String) (rel : NeuralRelationshipType)
    (conf : ℚ) (now : Int) :
    ((create_neural_edge edgeRun cfg st f t rel conf now).1).graph.nodes =
      st.graph.nodes := by
  rcases cne_cases edgeRun cfg st f t rel conf now with h | ⟨eid, eemb, h⟩ <;> rw [h]

/-- Full characterization of a discovered candidate: it is some other node of
    the scan, its score is a cosine value at least the threshold, and its
    relationship type is the classification of the pair at that score. -/
theorem candidate_spec (ctxSim : String → String → ℚ) (cos : List ℚ → List ℚ → ℚ)
    (cfg : NeuralGraphConfig) (nodes : List (String × NeuralGraphNode))
    (node_id : String) (current : NeuralGraphNode) (cur_emb : List ℚ) (now : Int)
    (c : String × NeuralRelationshipType × ℚ)
    (hc : c ∈ candidateRelationships ctxSim cos cfg nodes node_id current cur_emb now) :
    ∃ p ∈ nodes, c.1 = p.1 ∧
      c.2.1 = classify_relationship ctxSim current p.2 c.2.2 ∧
      cfg.similarity_threshold ≤ c.2.2 ∧ ∃ a b, c.2.2 = cos a b := by
  unfold candidateRelationships at hc
  rw [List.mem_filterMap] at hc
  obtain ⟨p, hp, hfp⟩ := hc
  by_cases hguard : p.1 = node_id ∨
      p.2.created_at < now - cfg.temporal_window_hours * 3600
  · rw [if_pos hguard] at hfp
    cases hfp
  · rw [if_neg hguard] at hfp
    cases hemb : p.2.embedding with
    | none => rw [hemb] at hfp; cases hfp
    | some other_embedding =>
      rw [hemb] at hfp
      dsimp only at hfp
      by_cases hsim : cos cur_emb other_embedding ≥ cfg.similarity_threshold
      · rw [if_pos hsim] at hfp
        obtain rfl := Option.some.inj hfp
        exact ⟨p, hp, rfl, rfl, hsim, cur_emb, other_embedding, rfl⟩
      · rw [if_neg hsim] at hfp
        cases hfp

/-- create_neural_edge preserves the graph invariant when both endpoints are
    nodes and the confidence is in [0,1]. -/
theorem cne_wf (edgeRun : List ℚ → List ℚ) (cfg : NeuralGraphConfig)
    (st : GraphState) (f t : String) (rel : NeuralRelationshipType)
    (conf : ℚ) (now : Int)
    (hwf : GraphWF st.graph)
    (hf : (alGet st.graph.nodes f).isSome)
    (ht : (alGet st.graph.nodes t).isSome)
    (hc0 : 0 ≤ conf) (hc1 : conf ≤ 1) :
    GraphWF ((create_neural_edge edgeRun cfg st f t rel conf now).1).graph := by
  rcases cne_cases edgeRun cfg st f t rel conf now with h | ⟨eid, eemb, h⟩
  · rw [h]; exact hwf
  · rw [h]
    obtain ⟨hclosed, hadj, hbound⟩ := hwf
    refine ⟨?_, ?_, ?_⟩
    · intro p hp
      rcases mem_alInsert hp with rfl | hold
      · exact ⟨hf, ht⟩
      · exact hclosed p hold
    · intro p hp
      obtain ⟨ha, hr⟩ := hadj p hp
      exact ⟨alGet_alPush_isSome_of _ _ _ _ ha, alGet_alPush_isSome_of _ _ _ _ hr⟩
    · intro p hp
      rcases mem_alInsert hp with rfl | hold
      · exact ⟨hc0, hc1, hc0, hc1⟩
      · exact hbound p hold

/-- The edge-creation loop never changes the node map. -/
theorem createEdgesLoop_nodes (edgeRun : List ℚ → List ℚ) (cfg : NeuralGraphConfig)
    (node_id : String) (now : Int) :
    ∀ (cands : List (String × NeuralRelationshipType × ℚ)) (st : GraphState),
    ((createEdgesLoop edgeRun cfg st node_id now cands).1).graph.nodes =
      st.graph.nodes := by
  intro cands
  induction cands with
  | nil => intro st; rfl
  | cons c rest ih =>
    intro st
    simp only [createEdgesLoop]
    cases hcne : create_neural_edge edgeRun cfg st node_id c.1 c.2.1 c.2.2 now with
    | mk st1 res =>
      have hn : st1.graph.nodes = st.graph.nodes := by
        have := cne_nodes edgeRun cfg st node_id c.1 c.2.1 c.2.2 now
        rw [hcne] at this
        exact this
      cases res with
      | ok a => rw [ih st1, hn]
      | error e => exact hn

/-- The edge-creation loop preserves the graph invariant when every candidate
    names an existing node and carries a confidence in [0,1]. -/
theorem createEdgesLoop_wf (edgeRun : List ℚ → List ℚ) (cfg : NeuralGraphConfig)
    (node_id : String) (now : Int) :
    ∀ (cands : List (String × NeuralRelationshipType × ℚ)) (st : GraphState),
    GraphWF st.graph →
    (alGet st.graph.nodes node_id).isSome →
    (∀ c ∈ cands, (alGet st.graph.nodes c.1).isSome ∧ 0 ≤ c.2.2 ∧ c.2.2 ≤ 1) →
    GraphWF ((createEdgesLoop edgeRun cfg st node_id now cands).1).graph := by
  intro cands
  induction cands with
  | nil => intro st hwf _ _; exact hwf
  | cons c rest ih =>
    intro st hwf hnid hcands
    obtain ⟨hc_mem, hc0, hc1⟩ := hcands c (List.mem_cons_self c rest)
    simp only [createEdgesLoop]
    cases hcne : create_neural_edge edgeRun cfg st node_id c.1 c.2.1 c.2.2 now with
    | mk st1 res =>
      have hwf1 : GraphWF st1.graph := by
        have := cne_wf edgeRun cfg st node_id c.1 c.2.1 c.2.2 now hwf hnid hc_mem hc0 hc1
        rw [hcne] at this
        exact this
      have hn : st1.graph.nodes = st.graph.nodes := by
        have := cne_nodes edgeRun cfg st node_id c.1 c.2.1 c.2.2 now
        rw [hcne] at this
        exact this
      cases res with
      | ok a =>
        exact ih st1 hwf1 (by rw [hn]; exact hnid)
          (fun c' hc' => by rw [hn]; exact hcands c' (List.mem_cons_of_mem c hc'))
      | error e => exact hwf1

/-- discover_relationships preserves the graph invariant whenever the cosine
    oracle is bounded by 1 and the similarity threshold is non-negative. -/
theorem discover_wf (ctxSim : String → String → ℚ) (cos : List ℚ → List ℚ → ℚ)
    (edgeRun : List ℚ → List ℚ) (cfg : NeuralGraphConfig)
    (st : GraphState) (node_id : String) (now : Int)
    (hwf : GraphWF st.graph)
    (hcos : ∀ a b, cos a b ≤ 1) (hthr : 0 ≤ cfg.similarity_threshold) :
    GraphWF ((discover_relationships ctxSim cos edgeRun cfg st node_id now).1).graph := by
  unfold discover_relationships
  cases hcur : alGet st.graph.nodes node_id with
  | none => exact hwf
  | some current =>
    dsimp only
    cases hemb : current.embedding with
    | none => exact hwf
    | some cur_emb =>
      dsimp only
      apply createEdgesLoop_wf edgeRun cfg node_id now _ st hwf (by simp [hcur])
      intro c hc
      obtain ⟨p, hp, hc1, _, hthr', a, b, hcval⟩ :=
        candidate_spec ctxSim cos cfg st.graph.nodes node_id current cur_emb now c hc
      refine ⟨?_, ?_, ?_⟩
      · rw [hc1]
        exact alGet_isSome_of_mem (v := p.2) (by simpa using hp)
      · exact le_trans hthr hthr'
      · rw [hcval]; exact hcos a b

/-- add_memory_node preserves the graph invariant. -/
theorem add_memory_node_wf (embedM : AgentMemory → List ℚ)
    (ctxSim : String → String → ℚ) (cos : List ℚ → List ℚ → ℚ)
    (edgeRun : List ℚ → List ℚ) (cfg : NeuralGraphConfig)
    (st : GraphState) (memory : AgentMemory) (now : Int)
    (hwf : GraphWF st.graph)
    (hcos : ∀ a b, cos a b ≤ 1) (hthr : 0 ≤ cfg.similarity_threshold) :
    GraphWF ((add_memory_node embedM ctxSim cos edgeRun cfg st memory now).1).graph := by
  obtain ⟨hclosed, hadj, hbound⟩ := hwf
  have hwf1 : ∀ v : NeuralGraphNode,
      GraphWF { nodes := alInsert st.graph.nodes ("memory_" ++ memory.id) v,
                edges := st.graph.edges,
                adjacency := alEnsure st.graph.adjacency ("memory_" ++ memory.id),
                reverse_adjacency :=
                  alEnsure st.graph.reverse_adjacency ("memory_" ++ memory.id) } := by
    intro v
    refine ⟨?_, ?_, ?_⟩
    · intro p hp
      obtain ⟨h1, h2⟩ := hclosed p hp
      exact ⟨alGet_alInsert_isSome_of _ _ _ _ h1, alGet_alInsert_isSome_of _ _ _ _ h2⟩
    · intro p hp
      rcases mem_alInsert hp with rfl | hold
      · exact ⟨alGet_alEnsure_isSome _ _, alGet_alEnsure_isSome _ _⟩
      · obtain ⟨ha, hr⟩ := hadj p hold
        exact ⟨alGet_alEnsure_isSome_of _ _ _ ha, alGet_alEnsure_isSome_of _ _ _ hr⟩
    · intro p hp
      exact hbound p hp
  have key : ∀ (o : GraphState × Except String Unit) (e' : String),
      GraphWF o.1.graph →
      GraphWF ((match o.2 with
        | .ok _ => (o.1, Except.ok e')
        | .error e => (o.1, Except.error e)).1 : GraphState).graph := by
    intro o e' ho
    cases o.2 <;> exact ho
  unfold add_memory_node
  dsimp only
  apply key
  apply discover_wf ctxSim cos edgeRun cfg _ _ _ _ hcos hthr
  exact hwf1 _

theorem runAdds_wf (embedM : AgentMemory → List ℚ) (ctxSim : String → String → ℚ)
    (cos : List ℚ → List ℚ → ℚ) (edgeRun : List ℚ → List ℚ)
    (cfg : NeuralGraphConfig)
    (hcos : ∀ a b, cos a b ≤ 1) (hthr : 0 ≤ cfg.similarity_threshold) :
    ∀ (ops : List (AgentMemory × Int)) (st : GraphState), GraphWF st.graph →
    GraphWF (runAdds embedM ctxSim cos edgeRun cfg st ops).graph := by
  intro ops
  induction ops with
  | nil => intro st hwf; exact hwf
  | cons op rest ih =>
    intro st hwf
    exact ih _ (add_memory_node_wf embedM ctxSim cos edgeRun cfg st op.1 op.2 hwf hcos hthr)

/-! ## Claim C2 -/

/-- Claim C2: after any sequence of add_memory_node calls with distinct
    memory ids, every edge endpoint is a key of the node map, every node has
    a (possibly empty) entry in both adjacency maps, and every edge weight
    and confidence lies in [0,1].  cos abstracts the f32 cosine similarity,
    whose exact-arithmetic range is [-1,1] (hypothesis hcos), and the
    threshold hypothesis holds for the default configuration (0.7). -/
theorem add_memory_node_graph_invariant (embedM : AgentMemory → List ℚ)
    (ctxSim : String → String → ℚ) (cos : List ℚ → List ℚ → ℚ)
    (edgeRun : List ℚ → List ℚ) (cfg : NeuralGraphConfig)
    (ops : List (AgentMemory × Int))
    (hcos : ∀ a b, cos a b ≤ 1) (hthr : 0 ≤ cfg.similarity_threshold)
    (hids : (ops.map (fun op => op.1.id)).Pairwise (· ≠ ·)) :
    GraphWF (runAdds embedM ctxSim cos edgeRun cfg initialGraphState ops).graph := by
  apply runAdds_wf embedM ctxSim cos edgeRun cfg hcos hthr ops
  refine ⟨?_, ?_, ?_⟩ <;> intro p hp <;> cases hp

/-- Witness helper memory: a Task record of agent a. -/
def memW1 : AgentMemory :=
  { id := "m1", agent_id := "a", memory_type := .Task, content := "t1",
    metadata := [], relevance_score := 1, created_at := 0, access_count := 0,
    tags := [] }

/-- Witness helper memory: a second Task record of the same agent. -/
def memW2 : AgentMemory :=
  { id := "m2", agent_id := "a", memory_type := .Task, content := "t2",
    metadata := [], relevance_score := 1, created_at := 0, access_count := 0,
    tags := [] }

/-- Witness for C2: two concrete insertions under the default configuration
    with a constant 4/5 cosine oracle; the second insertion discovers the
    first node and creates an AgentCollaboration edge, and the invariant holds
    on the resulting state. -/
theorem add_memory_node_graph_invariant_witness :
    ((∀ a b : List ℚ, (fun (_ _ : List ℚ) => (4/5 : ℚ)) a b ≤ 1) ∧
      (0 : ℚ) ≤ NeuralGraphConfig.default.similarity_threshold ∧
      (([(memW1, (0 : Int)), (memW2, 0)].map
        (fun op => op.1.id)).Pairwise (· ≠ ·))) ∧
    GraphWF (runAdds (fun _ => [1]) (fun _ _ => 0) (fun _ _ => 4/5) (fun _ => [])
      NeuralGraphConfig.default initialGraphState
      [(memW1, 0), (memW2, 0)]).graph := by
  refine ⟨⟨fun a b => by norm_num, by norm_num [NeuralGraphConfig.default], ?_⟩, ?_⟩
  · simp [memW1, memW2]
  · exact add_memory_node_graph_invariant (fun _ => [1]) (fun _ _ => 0)
      (fun _ _ => 4/5) (fun _ => []) NeuralGraphConfig.default
      [(memW1, 0), (memW2, 0)]
      (fun a b => by norm_num) (by norm_num [NeuralGraphConfig.default])
      (by simp [memW1, memW2])

/-! ## Claim C9 -/

/-- Every node of the graph carries a non-null agent id. -/
def NodesAgents (g : GraphStructure) : Prop :=
  ∀ p ∈ g.nodes, p.2.agent_id.isSome

/-- No edge of the graph is typed TemporalSequence. -/
def NoTemporalEdges (g : GraphStructure) : Prop :=
  ∀ p ∈ g.edges, p.2.relationship_type ≠ "TemporalSequence"

theorem classifyTypePair_ne_temporal (t1 t2 : MemoryType) :
    classifyTypePair t1 t2 ≠ some .TemporalSequence := by
  cases t1 <;> cases t2 <;> simp [classifyTypePair]

/-- The TemporalSequence branch of classify_relationship is reachable only
    when both agent ids are None: equal non-null ids are caught by the
    AgentCollaboration rule first. -/
theorem classify_temporal_only_if_none (ctxSim : String → String → ℚ)
    (node1 node2 : NeuralGraphNode) (similarity : ℚ)
    (h : classify_relationship ctxSim node1 node2 similarity = .TemporalSequence) :
    node1.agent_id = none ∧ node2.agent_id = none := by
  unfold classify_relationship at h
  by_cases hsim : similarity > 9/10
  · rw [if_pos hsim] at h
    cases h
  · rw [if_neg hsim] at h
    by_cases hcollab : node1.agent_id = node2.agent_id ∧ node1.agent_id.isSome
    · rw [if_pos hcollab] at h
      cases h
    · rw [if_neg hcollab] at h
      by_cases htemp : node1.agent_id = node2.agent_id ∧
          minutesAbs node1.created_at node2.created_at < 60
      · have hno : ¬ node1.agent_id.isSome := fun hs => hcollab ⟨htemp.1, hs⟩
        have h1 : node1.agent_id = none := Option.not_isSome_iff_eq_none.mp hno
        refine ⟨h1, ?_⟩
        rw [← htemp.1]
        exact h1
      · rw [if_neg htemp] at h
        cases hm : typePatternRel node1.memory_type node2.memory_type with
        | some rel =>
          rw [hm] at h
          subst h
          cases hn1 : node1.memory_type with
          | none => rw [hn1] at hm; cases hm
          | some t1 =>
            cases hn2 : node2.memory_type with
            | none => rw [hn1, hn2] at hm; cases hm
            | some t2 =>
              rw [hn1, hn2] at hm
              exact absurd hm (classifyTypePair_ne_temporal t1 t2)
        | none =>
          rw [hm] at h
          by_cases hctx : ctxSim node1.content node2.content > 4/5
          · rw [if_pos hctx] at h; cases h
          · rw [if_neg hctx] at h; cases h

theorem relTypeName_eq_temporal (r : NeuralRelationshipType)
    (h : relTypeName r = "TemporalSequence") : r = .TemporalSequence := by
  cases r <;> first | rfl | (exact absurd h (by decide))

/-- The edge-creation loop creates no TemporalSequence edge when no candidate
    is classified TemporalSequence. -/
theorem createEdgesLoop_no_temporal (edgeRun : List ℚ → List ℚ)
    (cfg : NeuralGraphConfig) (node_id : String) (now : Int) :
    ∀ (cands : List (String × NeuralRelationshipType × ℚ)) (st : GraphState),
    NoTemporalEdges st.graph →
    (∀ c ∈ cands, c.2.1 ≠ .TemporalSequence) →
    NoTemporalEdges ((createEdgesLoop edgeRun cfg st node_id now cands).1).graph := by
  intro cands
  induction cands with
  | nil => intro st hnt _; exact hnt
  | cons c rest ih =>
    intro st hnt hcands
    have hc := hcands c (List.mem_cons_self c rest)
    have hcne_nt : NoTemporalEdges
        ((create_neural_edge edgeRun cfg st node_id c.1 c.2.1 c.2.2 now).1).graph := by
      rcases cne_cases edgeRun cfg st node_id c.1 c.2.1 c.2.2 now with hh | ⟨eid, eemb, hh⟩
      · rw [hh]; exact hnt
      · rw [hh]
        intro p hp
        rcases mem_alInsert hp with rfl | hold
        · intro habs
          exact hc (relTypeName_eq_temporal _ habs)
        · exact hnt p hold
    simp only [createEdgesLoop]
    cases hcne : create_neural_edge edgeRun cfg st node_id c.1 c.2.1 c.2.2 now with
    | mk st1 res =>
      rw [hcne] at hcne_nt
      cases res with
      | ok a =>
        exact ih st1 hcne_nt (fun c' hc' => hcands c' (List.mem_cons_of_mem c hc'))
      | error e => exact hcne_nt

/-- discover_relationships creates no TemporalSequence edge when every node
    of the graph has a non-null agent id. -/
theorem discover_no_temporal (ctxSim : String → String → ℚ)
    (cos : List ℚ → List ℚ → ℚ) (edgeRun : List ℚ → List ℚ)
    (cfg : NeuralGraphConfig) (st : GraphState) (node_id : String) (now : Int)
    (hagents : NodesAgents st.graph) (hnt : NoTemporalEdges st.graph) :
    NoTemporalEdges
      ((discover_relationships ctxSim cos edgeRun cfg st node_id now).1).graph := by
  unfold discover_relationships
  cases hcur : alGet st.graph.nodes node_id with
  | none => exact hnt
  | some current =>
    dsimp only
    cases hemb : current.embedding with
    | none => exact hnt
    | some cur_emb =>
      dsimp only
      apply createEdgesLoop_no_temporal edgeRun cfg node_id now _ st hnt
      intro c hc
      obtain ⟨p, hp, _, hcrel, _, _⟩ :=
        candidate_spec ctxSim cos cfg st.graph.nodes node_id current cur_emb now c hc
      intro habs
      rw [habs] at hcrel
      have hcur_some : current.agent_id.isSome :=
        hagents (node_id, current) (mem_of_alGet hcur)
      have := (classify_temporal_only_if_none ctxSim current p.2 c.2.2 hcrel.symm).1
      rw [this] at hcur_some
      cases hcur_some

/-- discover_relationships never changes the node map. -/
theorem discover_nodes (ctxSim : String → String → ℚ)
    (cos : List ℚ → List ℚ → ℚ) (edgeRun : List ℚ → List ℚ)
    (cfg : NeuralGraphConfig) (st : GraphState) (node_id : String) (now : Int) :
    ((discover_relationships ctxSim cos edgeRun cfg st node_id now).1).graph.nodes =
      st.graph.nodes := by
  unfold discover_relationships
  cases hcur : alGet st.graph.nodes node_id with
  | none => rfl
  | some current =>
    dsimp only
    cases hemb : current.embedding with
    | none => rfl
    | some cur_emb =>
      dsimp only
      exact createEdgesLoop_nodes edgeRun cfg node_id now _ st

/-- add_memory_node keeps every node agent non-null and creates no
    TemporalSequence edge. -/
theorem add_memory_node_no_temporal (embedM : AgentMemory → List ℚ)
    (ctxSim : String → String → ℚ) (cos : List ℚ → List ℚ → ℚ)
    (edgeRun : List ℚ → List ℚ) (cfg : NeuralGraphConfig)
    (st : GraphState) (memory : AgentMemory) (now : Int)
    (hagents : NodesAgents st.graph) (hnt : NoTemporalEdges st.graph) :
    NodesAgents ((add_memory_node embedM ctxSim cos edgeRun cfg st memory now).1).graph ∧
    NoTemporalEdges
      ((add_memory_node embedM ctxSim cos edgeRun cfg st memory now).1).graph := by
  have hagents1 : ∀ v : NeuralGraphNode, v.agent_id.isSome →
      NodesAgents { nodes := alInsert st.graph.nodes ("memory_" ++ memory.id) v,
                    edges := st.graph.edges,
                    adjacency := alEnsure st.graph.adjacency ("memory_" ++ memory.id),
                    reverse_adjacency :=
                      alEnsure st.graph.reverse_adjacency ("memory_" ++ memory.id) } := by
    intro v hv p hp
    rcases mem_alInsert hp with rfl | hold
    · exact hv
    · exact hagents p hold
  have key : ∀ (o : GraphState × Except String Unit) (e' : String),
      (NodesAgents o.1.graph ∧ NoTemporalEdges o.1.graph) →
      (NodesAgents ((match o.2 with
        | .ok _ => (o.1, Except.ok e')
        | .error e => (o.1, Except.error e)).1 : GraphState).graph ∧
       NoTemporalEdges ((match o.2 with
        | .ok _ => (o.1, Except.ok e')
        | .error e => (o.1, Except.error e)).1 : GraphState).graph) := by
    intro o e' ho
    cases o.2 <;> exact ho
  unfold add_memory_node
  dsimp only
  apply key
  constructor
  · intro p hp
    rw [discover_nodes] at hp
    refine hagents1 _ ?_ p hp
    rfl
  · apply discover_no_temporal
    · refine hagents1 _ ?_
      rfl
    · intro p hp
      exact hnt p hp

/-- Claim C9: classify_relationship returns TemporalSequence only when both
    agent ids are None; every node inserted by add_memory_node carries
    agent_id = Some, and hence a graph built solely through add_memory_node
    never holds a TemporalSequence edge. -/
theorem no_temporal_sequence_edges (embedM : AgentMemory → List ℚ)
    (ctxSim : String → String → ℚ) (cos : List ℚ → List ℚ → ℚ)
    (edgeRun : List ℚ → List ℚ) (cfg : NeuralGraphConfig)
    (ops : List (AgentMemory × Int)) :
    (∀ node1 node2 similarity,
      classify_relationship ctxSim node1 node2 similarity = .TemporalSequence →
      node1.agent_id = none ∧ node2.agent_id = none) ∧
    NodesAgents (runAdds embedM ctxSim cos edgeRun cfg initialGraphState ops).graph ∧
    NoTemporalEdges (runAdds embedM ctxSim cos edgeRun cfg initialGraphState ops).graph := by
  refine ⟨fun n1 n2 s h => classify_temporal_only_if_none ctxSim n1 n2 s h, ?_⟩
  suffices h : ∀ (l : List (AgentMemory × Int)) (st : GraphState),
      NodesAgents st.graph → NoTemporalEdges st.graph →
      NodesAgents (runAdds embedM ctxSim cos edgeRun cfg st l).graph ∧
      NoTemporalEdges (runAdds embedM ctxSim cos edgeRun cfg st l).graph by
    exact h ops initialGraphState (fun p hp => by cases hp) (fun p hp => by cases hp)
  intro l
  induction l with
  | nil => intro st h1 h2; exact ⟨h1, h2⟩
  | cons op rest ih =>
    intro st h1 h2
    obtain ⟨h1', h2'⟩ :=
      add_memory_node_no_temporal embedM ctxSim cos edgeRun cfg st op.1 op.2 h1 h2
    exact ih _ h1' h2'

/-! ## Claim C8 -/

/-- A sequence of embed_text calls on the service, keeping only the final
    service state. -/
def runEmbeds {κ : Type} [DecidableEq κ] (actApply : ActivationFunction → ℚ → ℚ)
    (sqrtQ : ℚ → ℚ) (keyFn : String → Option MemoryType → κ)
    (s : NeuralEmbeddingService κ) :
    List (String × Option MemoryType) → NeuralEmbeddingService κ
  | [] => s
  | op :: rest =>
    runEmbeds actApply sqrtQ keyFn
      (NeuralEmbeddingService.embed_text actApply sqrtQ keyFn s op.1 op.2).2 rest

/-- The two services hold the same networks and configuration (embed_text
    only ever touches the cache). -/
def SameNets {κ : Type} (s s' : NeuralEmbeddingService κ) : Prop :=
  s'.memory_networks = s.memory_networks ∧
  s'.general_network = s.general_network ∧ s'.config = s.config

theorem computeEmbed_sameNets (actApply : ActivationFunction → ℚ → ℚ)
    (sqrtQ : ℚ → ℚ) {κ : Type} {s s' : NeuralEmbeddingService κ}
    (h : SameNets s s') (text : String) (mt : Option MemoryType) :
    computeEmbed actApply sqrtQ s' text mt = computeEmbed actApply sqrtQ s text mt := by
  unfold computeEmbed selectNetwork
  rw [h.1, h.2.1, h.2.2]

theorem embed_text_sameNets (actApply : ActivationFunction → ℚ → ℚ)
    (sqrtQ : ℚ → ℚ) {κ : Type} [DecidableEq κ]
    (keyFn : String → Option MemoryType → κ) (s : NeuralEmbeddingService κ)
    (text : String) (mt : Option MemoryType) :
    SameNets s (NeuralEmbeddingService.embed_text actApply sqrtQ keyFn s text mt).2 := by
  unfold NeuralEmbeddingService.embed_text
  dsimp only
  cases alGet s.cache (keyFn text mt) with
  | some v => exact ⟨rfl, rfl, rfl⟩
  | none => exact ⟨rfl, rfl, rfl⟩

theorem sameNets_trans {κ : Type} {s1 s2 s3 : NeuralEmbeddingService κ}
    (h12 : SameNets s1 s2) (h23 : SameNets s2 s3) : SameNets s1 s3 :=
  ⟨h23.1.trans h12.1, h23.2.1.trans h12.2.1, h23.2.2.trans h12.2.2⟩

theorem runEmbeds_sameNets (actApply : ActivationFunction → ℚ → ℚ)
    (sqrtQ : ℚ → ℚ) {κ : Type} [DecidableEq κ]
    (keyFn : String → Option MemoryType → κ) :
    ∀ (ops : List (String × Option MemoryType)) (s : NeuralEmbeddingService κ),
    SameNets s (runEmbeds actApply sqrtQ keyFn s ops) := by
  intro ops
  induction ops with
  | nil => intro s; exact ⟨rfl, rfl, rfl⟩
  | cons op rest ih =>
    intro s
    exact sameNets_trans (embed_text_sameNets actApply sqrtQ keyFn s op.1 op.2) (ih _)

/-- The Debug rendering of a memory type, as hashed by generate_cache_key:
    the derived Debug prints the bare variant name. -/
def memTypeDebug : MemoryType → String
  | .Conversation => "Conversation"
  | .Task => "Task"
  | .Learning => "Learning"
  | .Context => "Context"
  | .Tool => "Tool"
  | .Error => "Error"
  | .Success => "Success"
  | .Pattern => "Pattern"

/-- The exact byte string generate_cache_key feeds to SHA-256: the text
    followed, when a memory type is present, by its Debug rendering, with no
    separator between the two.  The missing separator makes the function
    non-injective: genKeyBytes "fooTask" none = genKeyBytes "foo" (some Task). -/
def genKeyBytes (text : String) (memory_type : Option MemoryType) : String :=
  match memory_type with
  | some mem_type => text ++ memTypeDebug mem_type
  | none => text

/-- NeuralEmbeddingService::generate_cache_key: the SHA-256 hex digest of
    genKeyBytes; hash abstracts the digest, so equal byte strings always give
    equal keys, for SHA-256 as for every other hash. -/
def generate_cache_key {κ : Type} (hash : String → κ) (text : String)
    (memory_type : Option MemoryType) : κ :=
  hash (genKeyBytes text memory_type)

/-- After any embed_text call, the cache binds the call key to exactly the
    returned vector. -/
theorem embed_text_binding (actApply : ActivationFunction → ℚ → ℚ)
    (sqrtQ : ℚ → ℚ) {κ : Type} [DecidableEq κ]
    (keyFn : String → Option MemoryType → κ) (s : NeuralEmbeddingService κ)
    (text : String) (mt : Option MemoryType) :
    alGet (NeuralEmbeddingService.embed_text actApply sqrtQ keyFn s text mt).2.cache
      (keyFn text mt) =
    some (NeuralEmbeddingService.embed_text actApply sqrtQ keyFn s text mt).1 := by
  unfold NeuralEmbeddingService.embed_text
  dsimp only
  cases hc : alGet s.cache (keyFn text mt) with
  | some w => exact hc
  | none =>
    dsimp only
    rw [alGet_alInsert, if_pos rfl]

/-- The cache binding at key k is either absent or the fixed vector v. -/
def KeyBinding {κ : Type} [DecidableEq κ] (s : NeuralEmbeddingService κ)
    (k : κ) (v : List ℚ) : Prop :=
  alGet s.cache k = none ∨ alGet s.cache k = some v

/-- An embed_text call whose key differs from k preserves the k-binding: it
    can clear it (capacity eviction) but never rebind it to another value. -/
theorem embed_text_keyBinding (actApply : ActivationFunction → ℚ → ℚ)
    (sqrtQ : ℚ → ℚ) {κ : Type} [DecidableEq κ]
    (keyFn : String → Option MemoryType → κ) (s : NeuralEmbeddingService κ)
    (text : String) (mt : Option MemoryType) (k : κ) (v : List ℚ)
    (hne : keyFn text mt ≠ k) (h : KeyBinding s k v) :
    KeyBinding (NeuralEmbeddingService.embed_text actApply sqrtQ keyFn s text mt).2 k v := by
  unfold NeuralEmbeddingService.embed_text
  dsimp only
  cases hc : alGet s.cache (keyFn text mt) with
  | some w => exact h
  | none =>
    dsimp only
    unfold KeyBinding
    simp only [alGet_alInsert, if_neg hne]
    by_cases hsize : s.cache.length ≥ s.config.cache_size_limit
    · rw [if_pos hsize]
      exact Or.inl rfl
    · rw [if_neg hsize]
      exact h

theorem runEmbeds_keyBinding (actApply : ActivationFunction → ℚ → ℚ)
    (sqrtQ : ℚ → ℚ) {κ : Type} [DecidableEq κ]
    (keyFn : String → Option MemoryType → κ) (k : κ) (v : List ℚ) :
    ∀ (ops : List (String × Option MemoryType)) (s : NeuralEmbeddingService κ),
    (∀ op ∈ ops, keyFn op.1 op.2 ≠ k) →
    KeyBinding s k v →
    KeyBinding (runEmbeds actApply sqrtQ keyFn s ops) k v := by
  intro ops
  induction ops with
  | nil => intro s _ h; exact h
  | cons op rest ih =>
    intro s hops h
    exact ih _ (fun op' hop' => hops op' (List.mem_cons_of_mem op hop'))
      (embed_text_keyBinding actApply sqrtQ keyFn s op.1 op.2 k v
        (hops op (List.mem_cons_self op rest)) h)

/-- When the binding at the call key is absent or coherent, embed_text returns
    the recomputation. -/
theorem embed_text_result_of_keyBinding (actApply : ActivationFunction → ℚ → ℚ)
    (sqrtQ : ℚ → ℚ) {κ : Type} [DecidableEq κ]
    (keyFn : String → Option MemoryType → κ) (s : NeuralEmbeddingService κ)
    (text : String) (mt : Option MemoryType)
    (h : KeyBinding s (keyFn text mt) (computeEmbed actApply sqrtQ s text mt)) :
    (NeuralEmbeddingService.embed_text actApply sqrtQ keyFn s text mt).1 =
      computeEmbed actApply sqrtQ s text mt := by
  unfold NeuralEmbeddingService.embed_text
  dsimp only
  cases hc : alGet s.cache (keyFn text mt) with
  | some w =>
    rcases h with h | h
    · rw [hc] at h; cases h
    · rw [hc] at h
      exact Option.some.inj h
  | none => rfl

/-- Counterexample helper: a 0-input/1-output network whose run is always the
    bias [5]. -/
def netG : NeuralNetwork :=
  { layers := [⟨0, .Linear, 0⟩, ⟨1, .Linear, 0⟩],
    weights := [[[]]], biases := [[5]], learning_rate := 0 }

/-- Counterexample helper: a 0-input/1-output network whose run is always the
    bias [7]. -/
def netT : NeuralNetwork :=
  { layers := [⟨0, .Linear, 0⟩, ⟨1, .Linear, 0⟩],
    weights := [[[]]], biases := [[7]], learning_rate := 0 }

/-- Counterexample helper: a service with a Task-specialized network that
    embeds differently from the general one, and a capacity-1 cache. -/
def svcColl : NeuralEmbeddingService String :=
  { cache := [], memory_networks := [(.Task, netT)], general_network := netG,
    config := { embedding_dim := 1, max_text_length := 0, learning_rate := 0,
                training_epochs := 0, cache_size_limit := 1 } }

/-- Counterexample to C8 as stated: generate_cache_key concatenates the text
    and the Debug type tag with no separator, so ("fooTask", None) and
    ("foo", Some Task) feed identical byte strings to SHA-256 and share a
    cache key under every hash function.  With only embed_text calls in
    between (an embed of "x" that triggers the capacity clear, then the
    colliding embed of ("foo", Some Task) which repopulates the shared key
    from the Task network), two embed_text("fooTask", None) calls on the same
    service return different vectors. -/
theorem embed_text_cache_key_collision :
    genKeyBytes "fooTask" none = genKeyBytes "foo" (some .Task) ∧
    (NeuralEmbeddingService.embed_text (fun _ x => x) (fun _ => 0)
      (generate_cache_key (fun b => b))
      (runEmbeds (fun _ x => x) (fun _ => 0) (generate_cache_key (fun b => b))
        (NeuralEmbeddingService.embed_text (fun _ x => x) (fun _ => 0)
          (generate_cache_key (fun b => b)) svcColl "fooTask" none).2
        [("x", none), ("foo", some .Task)])
      "fooTask" none).1 ≠
    (NeuralEmbeddingService.embed_text (fun _ x => x) (fun _ => 0)
      (generate_cache_key (fun b => b)) svcColl "fooTask" none).1 := by
  constructor
  · decide
  · have hxk : ("fooTask" : String) ≠ "x" := by decide
    have hkx : ("x" : String) ≠ "fooTask" := by decide
    have happ : ("foo" : String) ++ "Task" = "fooTask" := by decide
    norm_num [NeuralEmbeddingService.embed_text, runEmbeds, computeEmbed,
      selectNetwork, text_to_features, normalize_embedding, NeuralNetwork.run,
      forwardPass, matVecAdd, dotL, alGet, alInsert, alRemove, genKeyBytes,
      generate_cache_key, memTypeDebug, svcColl, netG, netT, defaultLayer,
      hxk, hkx, happ]

/-- Amended C8: two embed_text calls with the same text and type, with no
    intervening train_on_memories, return identical vectors regardless of
    other embed_text calls (including capacity clears) in between, PROVIDED no
    intervening call feeds the same unseparated byte string
    text ++ Debug(type) to the hasher (the collision the missing separator
    admits), the hash is collision-free on distinct inputs (SHA-256 modelling
    assumption) and the initial binding at the probed key, if present, is
    coherent (true of a fresh service). -/
theorem embed_text_deterministic_amended (actApply : ActivationFunction → ℚ → ℚ)
    (sqrtQ : ℚ → ℚ) {κ : Type} [DecidableEq κ] (hash : String → κ)
    (s : NeuralEmbeddingService κ) (text : String) (mt : Option MemoryType)
    (ops : List (String × Option MemoryType))
    (hhash : ∀ b1 b2, hash b1 = hash b2 → b1 = b2)
    (hops : ∀ op ∈ ops, genKeyBytes op.1 op.2 ≠ genKeyBytes text mt)
    (hok : KeyBinding s (generate_cache_key hash text mt)
      (computeEmbed actApply sqrtQ s text mt)) :
    (NeuralEmbeddingService.embed_text actApply sqrtQ (generate_cache_key hash)
      (runEmbeds actApply sqrtQ (generate_cache_key hash)
        (NeuralEmbeddingService.embed_text actApply sqrtQ (generate_cache_key hash)
          s text mt).2 ops)
      text mt).1 =
    (NeuralEmbeddingService.embed_text actApply sqrtQ (generate_cache_key hash)
      s text mt).1 := by
  have hv1 := embed_text_result_of_keyBinding actApply sqrtQ
    (generate_cache_key hash) s text mt hok
  have hbind1 : KeyBinding
      (NeuralEmbeddingService.embed_text actApply sqrtQ (generate_cache_key hash)
        s text mt).2
      (generate_cache_key hash text mt) (computeEmbed actApply sqrtQ s text mt) := by
    refine Or.inr ?_
    rw [embed_text_binding actApply sqrtQ (generate_cache_key hash) s text mt, hv1]
  have hne : ∀ op ∈ ops,
      generate_cache_key hash op.1 op.2 ≠ generate_cache_key hash text mt :=
    fun op hop h => hops op hop (hhash _ _ h)
  have hbind2 := runEmbeds_keyBinding actApply sqrtQ (generate_cache_key hash)
    (generate_cache_key hash text mt) (computeEmbed actApply sqrtQ s text mt)
    ops _ hne hbind1
  have hsn := sameNets_trans
    (embed_text_sameNets actApply sqrtQ (generate_cache_key hash) s text mt)
    (runEmbeds_sameNets actApply sqrtQ (generate_cache_key hash) ops _)
  have hok2 : KeyBinding
      (runEmbeds actApply sqrtQ (generate_cache_key hash)
        (NeuralEmbeddingService.embed_text actApply sqrtQ (generate_cache_key hash)
          s text mt).2 ops)
      (generate_cache_key hash text mt)
      (computeEmbed actApply sqrtQ
        (runEmbeds actApply sqrtQ (generate_cache_key hash)
          (NeuralEmbeddingService.embed_text actApply sqrtQ (generate_cache_key hash)
            s text mt).2 ops) text mt) := by
    rw [computeEmbed_sameNets actApply sqrtQ hsn]
    exact hbind2
  rw [embed_text_result_of_keyBinding actApply sqrtQ (generate_cache_key hash)
      _ text mt hok2,
    computeEmbed_sameNets actApply sqrtQ hsn, hv1]

/-- Witness helper: a 1-1 general network. -/
def netW : NeuralNetwork :=
  { layers := [⟨1, .Linear, 0⟩, ⟨1, .Linear, 0⟩],
    weights := [[[2]]], biases := [[3]], learning_rate := 0 }

/-- Witness helper: a service with no specialized networks, a capacity-1
    cache and 1-character features. -/
def svcW : NeuralEmbeddingService (String × Option MemoryType) :=
  { cache := [], memory_networks := [], general_network := netW,
    config := { embedding_dim := 1, max_text_length := 1, learning_rate := 0,
                training_epochs := 0, cache_size_limit := 1 } }

/-- Witness for C8 (amended): with the injective pair-forming hash, a fresh
    cache and a non-colliding intervening embed of "b" (whose key bytes differ
    from those of "a") that triggers the capacity clear, re-embedding "a"
    returns the original vector. -/
theorem embed_text_deterministic_amended_witness :
    ((∀ b1 b2 : String, (fun b => (b, (none : Option MemoryType))) b1 =
        (fun b => (b, (none : Option MemoryType))) b2 → b1 = b2) ∧
      (∀ op ∈ ([("b", none)] : List (String × Option MemoryType)),
        genKeyBytes op.1 op.2 ≠ genKeyBytes "a" none) ∧
      KeyBinding svcW (generate_cache_key (fun b => (b, none)) "a" none)
        (computeEmbed (fun _ x => x) (fun x => x) svcW "a" none)) ∧
    (NeuralEmbeddingService.embed_text (fun _ x => x) (fun x => x)
      (generate_cache_key (fun b => (b, none)))
      (runEmbeds (fun _ x => x) (fun x => x) (generate_cache_key (fun b => (b, none)))
        (NeuralEmbeddingService.embed_text (fun _ x => x) (fun x => x)
          (generate_cache_key (fun b => (b, none))) svcW "a" none).2 [("b", none)])
      "a" none).1 =
    (NeuralEmbeddingService.embed_text (fun _ x => x) (fun x => x)
      (generate_cache_key (fun b => (b, none))) svcW "a" none).1 :=
  ⟨⟨fun b1 b2 h => congrArg Prod.fst h,
    by
      intro op hop
      simp only [List.mem_singleton] at hop
      subst hop
      decide,
    Or.inl rfl⟩,
   embed_text_deterministic_amended (fun _ x => x) (fun x => x)
     (fun b => (b, none)) svcW "a" none [("b", none)]
     (fun b1 b2 h => congrArg Prod.fst h)
     (by
       intro op hop
       simp only [List.mem_singleton] at hop
       subst hop
       decide)
     (Or.inl rfl)⟩

/-- Every node inserted by add_memory_node carries a memory type: this is the
    reachable-state justification for the typed-node hypotheses of the
    classify_relationship precedence theorem. -/
theorem add_memory_node_nodes_typed (embedM : AgentMemory → List ℚ)
    (ctxSim : String → String → ℚ) (cos : List ℚ → List ℚ → ℚ)
    (edgeRun : List ℚ → List ℚ) (cfg : NeuralGraphConfig)
    (st : GraphState) (memory : AgentMemory) (now : Int)
    (h : ∀ p ∈ st.graph.nodes, p.2.memory_type.isSome) :
    ∀ p ∈ ((add_memory_node embedM ctxSim cos edgeRun cfg st memory now).1).graph.nodes,
      p.2.memory_type.isSome := by
  have key : ∀ (o : GraphState × Except String Unit) (e' : String),
      (∀ p ∈ o.1.graph.nodes, p.2.memory_type.isSome) →
      ∀ p ∈ ((match o.2 with
        | .ok _ => (o.1, Except.ok e')
        | .error e => (o.1, Except.error e)).1 : GraphState).graph.nodes,
        p.2.memory_type.isSome := by
    intro o e' ho
    cases o.2 <;> exact ho
  unfold add_memory_node
  dsimp only
  apply key
  intro p hp
  rw [discover_nodes] at hp
  rcases mem_alInsert hp with rfl | hold
  · rfl
  · exact h p hold

/-- Every node of a graph built solely through add_memory_node carries a
    memory type. -/
theorem runAdds_nodes_typed (embedM : AgentMemory → List ℚ)
    (ctxSim : String → String → ℚ) (cos : List ℚ → List ℚ → ℚ)
    (edgeRun : List ℚ → List ℚ) (cfg : NeuralGraphConfig)
    (ops : List (AgentMemory × Int)) :
    ∀ p ∈ (runAdds embedM ctxSim cos edgeRun cfg initialGraphState ops).graph.nodes,
      p.2.memory_type.isSome := by
  suffices h : ∀ (l : List (AgentMemory × Int)) (st : GraphState),
      (∀ p ∈ st.graph.nodes, p.2.memory_type.isSome) →
      ∀ p ∈ (runAdds embedM ctxSim cos edgeRun cfg st l).graph.nodes,
        p.2.memory_type.isSome by
    exact h ops initialGraphState (fun p hp => by cases hp)
  intro l
  induction l with
  | nil => intro st h1; exact h1
  | cons op rest ih =>
    intro st h1
    exact ih _ (add_memory_node_nodes_typed embedM ctxSim cos edgeRun cfg st op.1 op.2 h1)

/-- Witness for C3 (amended): instantiated at the default configuration, Task
    has a specialized network and Context does not. -/
theorem embedding_service_four_specialized_networks_witness :
    (MemoryType.Task ∈ ([.Conversation, .Task, .Learning, .Pattern] : List MemoryType)) ∧
    (MemoryType.Context ∉ ([.Conversation, .Task, .Learning, .Pattern] : List MemoryType)) ∧
    ∃ s : NeuralEmbeddingService String,
      NeuralEmbeddingService.new String (fun _ _ _ _ => 1) EmbeddingConfig.default = .ok s ∧
      (∃ net, alGet s.memory_networks MemoryType.Task = some net) ∧
      alGet s.memory_networks MemoryType.Context = none := by
  obtain ⟨s, hnew, hkeys, hin, hout⟩ :=
    embedding_service_four_specialized_networks String (fun _ x => x) (fun x => x)
      (fun _ _ _ _ => 1) EmbeddingConfig.default
  obtain ⟨net, hnet, _, _⟩ := hin MemoryType.Task (by simp)
  obtain ⟨hnone, _⟩ := hout MemoryType.Context (by simp)
  exact ⟨by simp, by simp, s, hnew, ⟨net, hnet⟩, hnone⟩

end Banshee
